import Mathlib

/-!
Shallow embedding of the itamae 802.11 MPDU decoder (files `itamae/bits.py` and
`itamae/mpdu.py`, plus the information-element loop of the private variant
`itamae/_mpdu.py`), together with theorems settling the specification claims.

Conventions of the embedding:
* a Python byte string is a `List Nat` (each entry the value of one octet);
* `struct.unpack_from` is `upk`, returning `none` exactly when Python raises
  `struct.error` (offset plus format size exceeding the buffer length);
* Python slices are total functions with Python clamping semantics;
* heterogeneous Python values (per-element dictionaries and such) are `PyVal`;
* the diagnostic text carried by `err` entries is abstracted to short fixed
  strings — the location strings (first components) are kept exact, because
  the specification names them;
* the `while` loop of `_parsemgmt_` in `mpdu.py` is modelled by a function
  that returns a `div` marker on the states where the Python loop repeats
  forever (its body raises `struct.error` before updating the offset, the
  handler only appends to `err`, and the loop is re-entered in an identical
  position); a separate step function `ieStep` mirrors one iteration of the
  Python body literally, and a lemma shows the marked states are fixed points
  of that step, which is what non-termination of the source loop means.
-/

namespace Itamae

/-! ### bits.py -/

/-- `bits.leastx`: value of the `x` least significant bits of `v`. -/
def leastx (x v : Nat) : Nat := v &&& ((1 <<< x) - 1)

/-- `bits.midx`: value of `x` bits of `v` starting at bit `s`. -/
def midx (s x v : Nat) : Nat := leastx x (v >>> s)

/-- `bits.mostx`: value of the bits of `v` from bit `s` upward. -/
def mostx (s v : Nat) : Nat := v >>> s

/-- One entry of `bits.bitmask_list`: whether `v &&& mask == mask`. -/
def bitset (mask v : Nat) : Bool := v &&& mask == mask

/-! ### byte buffers, Python slicing, struct unpacking -/

/-- A Python byte string: the list of its octet values. -/
abbrev Bytes := List Nat

/-- Python slice `f[a:a+n]` (clamped, never fails). -/
def pyTake (f : Bytes) (a n : Nat) : Bytes := (f.drop a).take n

/-- Python slice `f[a:]`. -/
def pyFrom (f : Bytes) (a : Nat) : Bytes := f.drop a

/-- Python slice `f[-n:]` for `n > 0` (whole string when shorter than `n`). -/
def takeLastN (n : Nat) (f : Bytes) : Bytes := f.drop (f.length - n)

/-- Python slice `f[:-n]` for `n > 0` (empty when not longer than `n`). -/
def dropLastN (n : Nat) (f : Bytes) : Bytes := f.take (f.length - n)

/-- Python slice `f[-a:-b]` for `a > b > 0` (e.g. the TKIP `f[-12:-4]`). -/
def sliceNeg (a b : Nat) (f : Bytes) : Bytes :=
  (f.take (f.length - b)).drop (f.length - a)

/-- Little-endian value of `n` bytes of `f` starting at index `off`
(used only at indices known to be in range). -/
def readLE (f : Bytes) (off : Nat) : Nat → Nat
  | 0 => 0
  | n + 1 => f.getD off 0 + 256 * readLE f (off + 1) n

/-- Field widths of the `struct` format characters used by the source:
`B` (u8), `H` (u16), `I`/`L` (u32), `Q` (u64); all little-endian. -/
inductive FU where
  | u8 | u16 | u32 | u64
  deriving Repr, DecidableEq

/-- Byte width of one format character. -/
def fuSize : FU → Nat
  | .u8 => 1
  | .u16 => 2
  | .u32 => 4
  | .u64 => 8

/-- Total byte width of a format (`struct.calcsize`). -/
def fmtSize (fs : List FU) : Nat := (fs.map fuSize).sum

/-- Values of a format read from `f` at `off` (bounds already checked). -/
def upkVals : List FU → Bytes → Nat → List Nat
  | [], _, _ => []
  | u :: rest, f, off => readLE f off (fuSize u) :: upkVals rest f (off + fuSize u)

/-- `struct.unpack_from(fmt, f, off)`: `none` models `struct.error`, raised
exactly when `off + calcsize(fmt) > len(f)`. -/
def upk (fs : List FU) (f : Bytes) (off : Nat) : Option (List Nat) :=
  if off + fmtSize fs ≤ f.length then some (upkVals fs f off) else none

/-- Format `6B`, one hardware address. -/
def fmtAddr : List FU := [.u8, .u8, .u8, .u8, .u8, .u8]

/-- Format `6B6BH` used for addr2, addr3, seqctrl. -/
def fmtAddr2Addr3Seq : List FU :=
  [.u8, .u8, .u8, .u8, .u8, .u8, .u8, .u8, .u8, .u8, .u8, .u8, .u16]

/-! ### heterogeneous Python values -/

/-- A Python value as produced by the per-element decoders: ints, floats
(always exact halves here, kept as rationals), byte strings, unicode strings
(kept as their code-point list, since Python 2 distinguishes `str` and
`unicode`), ASCII strings produced by formatting, lists, tuples and dicts. -/
inductive PyVal where
  | int (n : Nat)
  | sint (n : Int)
  | flo (q : Rat)
  | str (s : String)
  | uni (cps : List Nat)
  | bytes (bs : Bytes)
  | list (vs : List PyVal)
  | tup (vs : List PyVal)
  | dict (kvs : List (String × PyVal))

/-- An `int` dictionary entry from a `bits.bitmask_list` flag. -/
def bint (b : Bool) : PyVal := .int (if b then 1 else 0)

/-! ### hex formatting (`_hwaddr_` and `hexlify`) -/

/-- Lowercase hex digit. -/
def hexDigit (n : Nat) : Char :=
  if n < 10 then Char.ofNat (48 + n) else Char.ofNat (87 + n)

/-- Lowercase `{0:02x}` formatting of a byte value. -/
def hex02 (n : Nat) : String :=
  String.mk [hexDigit (n / 16 % 16), hexDigit (n % 16)]

/-- Uppercase hex digit. -/
def hexDigitU (n : Nat) : Char :=
  if n < 10 then Char.ofNat (48 + n) else Char.ofNat (55 + n)

/-- Uppercase `{0:02X}` formatting of a byte value. -/
def hex02U (n : Nat) : String :=
  String.mk [hexDigitU (n / 16 % 16), hexDigitU (n % 16)]

/-- `_hwaddr_`: colon-joined lowercase hex of six byte values. -/
def hwaddr (l : List Nat) : String :=
  String.intercalate ":" (l.map hex02)

/-- `binascii.hexlify`: lowercase hex of a byte string. -/
def hexlify (bs : Bytes) : String :=
  String.join (bs.map hex02)

/-! ### UTF-8 decoding (Python 2 `str.decode` of the SSID element) -/

/-- One step of a UTF-8 decoder over octet values, mirroring the Python 2
decoder (which rejects overlong forms but accepts surrogate code points).
Returns the decoded code points, or `none` on a `UnicodeDecodeError`. -/
def utf8Dec : Bytes → Option (List Nat)
  | [] => some []
  | b :: rest =>
    if b < 0x80 then (utf8Dec rest).map (b :: ·)
    else if 0xC2 ≤ b ∧ b ≤ 0xDF then
      match rest with
      | c1 :: rest2 =>
        if 0x80 ≤ c1 ∧ c1 ≤ 0xBF then
          (utf8Dec rest2).map (((b - 0xC0) * 64 + (c1 - 0x80)) :: ·)
        else none
      | _ => none
    else if 0xE0 ≤ b ∧ b ≤ 0xEF then
      match rest with
      | c1 :: c2 :: rest2 =>
        let lo1 := if b = 0xE0 then 0xA0 else 0x80
        if lo1 ≤ c1 ∧ c1 ≤ 0xBF ∧ 0x80 ≤ c2 ∧ c2 ≤ 0xBF then
          (utf8Dec rest2).map
            (((b - 0xE0) * 4096 + (c1 - 0x80) * 64 + (c2 - 0x80)) :: ·)
        else none
      | _ => none
    else if 0xF0 ≤ b ∧ b ≤ 0xF4 then
      match rest with
      | c1 :: c2 :: c3 :: rest2 =>
        let lo1 := if b = 0xF0 then 0x90 else 0x80
        let hi1 := if b = 0xF4 then 0x8F else 0xBF
        if lo1 ≤ c1 ∧ c1 ≤ hi1 ∧ 0x80 ≤ c2 ∧ c2 ≤ 0xBF ∧ 0x80 ≤ c3 ∧ c3 ≤ 0xBF then
          (utf8Dec rest2).map
            (((b - 0xF0) * 262144 + (c1 - 0x80) * 4096 +
              (c2 - 0x80) * 64 + (c3 - 0x80)) :: ·)
        else none
      | _ => none
    else none

/-! ### frame header field parsers (`mpdu.py`) -/

/-- Frame-control flags, `_fcflags_` (one bit each; the source stores the
ints 0/1 of `bits.bitmask_list`, modelled as booleans). -/
structure FcFlags where
  td : Bool
  fd : Bool
  mf : Bool
  r : Bool
  pm : Bool
  md : Bool
  pf : Bool
  o : Bool
  deriving Repr, DecidableEq

/-- `_fcflags_(fc1)` from `_FC_FLAGS_`. -/
def fcflags (v : Nat) : FcFlags :=
  { td := bitset 1 v, fd := bitset 2 v, mf := bitset 4 v, r := bitset 8 v,
    pm := bitset 16 v, md := bitset 32 v, pf := bitset 64 v, o := bitset 128 v }

/-- The `framectrl` sub-dictionary. -/
structure FrameCtrl where
  vers : Nat
  ftype : Nat
  subtype : Nat
  flags : FcFlags
  deriving Repr, DecidableEq

/-- The `duration` sub-dictionary of `_duration_`: `{'type':'vcs','dur':d}`,
`{'type':'cfp'}`, `{'type':'aid','aid':a}` or `{'type':None,'dur':'rsrv'}`. -/
inductive Duration where
  | vcs (dur : Nat)
  | cfp
  | aid (aid : Nat)
  | rsrv
  deriving Repr, DecidableEq

/-- `_duration_(v)`. -/
def duration (v : Nat) : Duration :=
  if bitset 32768 v = false then .vcs (leastx 15 v)
  else
    if bitset 16384 v = false then
      if v = 32768 then .cfp else .rsrv
    else
      if leastx 13 v ≤ 2007 then .aid (leastx 13 v) else .rsrv

/-- `_seqctrl_(v)`. -/
structure SeqCtrl where
  fragno : Nat
  seqno : Nat
  deriving Repr, DecidableEq

/-- `_seqctrl_`: fragment number in bits 0-3, sequence number above. -/
def seqctrlOf (v : Nat) : SeqCtrl :=
  { fragno := leastx 4 v, seqno := mostx 4 v }

/-- `_seqctrl_` as a `PyVal` dictionary (used for `barinfo`/`bainfo`). -/
def seqctrlPy (v : Nat) : List (String × PyVal) :=
  [("fragno", .int (leastx 4 v)), ("seqno", .int (mostx 4 v))]

/-- The `qos` sub-dictionary of `_qosctrl_`. -/
structure QosCtrl where
  eosp : Bool
  amsdu : Bool
  tid : Nat
  ackPolicy : Nat
  txop : Nat
  deriving Repr, DecidableEq

/-- `_qosctrl_((lsb, msb))`. -/
def qosctrlOf (lsb msb : Nat) : QosCtrl :=
  { eosp := bitset 16 lsb, amsdu := bitset 128 lsb,
    tid := leastx 4 lsb, ackPolicy := midx 5 2 lsb, txop := msb }

/-- `capinfo_all(v)`: the 16 capability-information flags of `_CAP_INFO_`
(dictionary order is that of the source listing; Python 2 dictionaries are
unordered). -/
def capinfoAll (v : Nat) : PyVal :=
  .dict [("ess", bint (bitset 1 v)), ("ibss", bint (bitset 2 v)),
         ("cfpollable", bint (bitset 4 v)), ("cf-poll-req", bint (bitset 8 v)),
         ("privacy", bint (bitset 16 v)), ("short-pre", bint (bitset 32 v)),
         ("pbcc", bint (bitset 64 v)), ("ch-agility", bint (bitset 128 v)),
         ("spec-mgmt", bint (bitset 256 v)), ("qos", bint (bitset 512 v)),
         ("time-slot", bint (bitset 1024 v)), ("apsd", bint (bitset 2048 v)),
         ("rdo-meas", bint (bitset 4096 v)), ("dsss-ofdm", bint (bitset 8192 v)),
         ("delayed-ba", bint (bitset 16384 v)),
         ("immediate-ba", bint (bitset 32768 v))]

/-- `_bactrl_(v)` plus the `type` key that `_parsectrl_` adds afterwards. -/
structure BaCtrl where
  ackpolicy : Bool
  multiTid : Bool
  compressedBm : Bool
  rsrv : Nat
  tidInfo : Nat
  btype : Option String := none
  deriving Repr, DecidableEq

/-- `_bactrl_(v)`. -/
def bactrlOf (v : Nat) : BaCtrl :=
  { ackpolicy := bitset 1 v, multiTid := bitset 2 v, compressedBm := bitset 4 v,
    rsrv := midx 3 9 v, tidInfo := mostx 12 v }

/-- `_pertid_((v0, v1))`: sequence-control fields plus the per-TID info. -/
def pertidPy (v0 v1 : Nat) : PyVal :=
  .dict (seqctrlPy v1 ++
         [("pertid-rsrv", .int (leastx 12 v0)), ("pertid-tid", .int (mostx 12 v0))])

/-- The `key-id` sub-dictionary shared by the TKIP and CCMP headers. -/
structure CryptKeyId where
  rsrv : Nat
  extIv : Nat
  keyId : Nat
  deriving Repr, DecidableEq

/-- The `l3-crypt` sub-dictionary of `_wep_`, `_tkip_` and `_ccmp_`. -/
inductive L3Crypt where
  | wep (iv : Bytes) (keyId : Nat) (icv : Bytes)
  | tkip (tsc1 wepSeed tsc0 : Nat) (keyid : CryptKeyId)
         (tsc2 tsc3 tsc4 tsc5 : Nat) (mic icv : Bytes)
  | ccmp (pn0 pn1 rsrv : Nat) (keyid : CryptKeyId)
         (pn2 pn3 pn4 pn5 : Nat) (mic : Bytes)
  deriving Repr, DecidableEq

/-- The `type` string stored in the `l3-crypt` dictionary. -/
def L3Crypt.ctype : L3Crypt → String
  | .wep .. => "wep"
  | .tkip .. => "tkip"
  | .ccmp .. => "ccmp"

/-- The `mic` entry of the `l3-crypt` dictionary (absent for WEP). -/
def L3Crypt.mic? : L3Crypt → Option Bytes
  | .wep .. => none
  | .tkip _ _ _ _ _ _ _ _ mic _ => some mic
  | .ccmp _ _ _ _ _ _ _ _ mic => some mic

/-- The `icv` entry of the `l3-crypt` dictionary (absent for CCMP). -/
def L3Crypt.icv? : L3Crypt → Option Bytes
  | .wep _ _ icv => some icv
  | .tkip _ _ _ _ _ _ _ _ _ icv => some icv
  | .ccmp .. => none

/-- The `pn5` entry of the CCMP `l3-crypt` dictionary. -/
def L3Crypt.pn5? : L3Crypt → Option Nat
  | .ccmp _ _ _ _ _ _ _ pn5 _ => some pn5
  | _ => none

/-! ### the MPDU record -/

/-- The MPDU dictionary built by `parse`.  The three mandatory keys and the
bookkeeping keys are plain fields; every key that may or may not be present
is an `Option` (`none` = key absent from the Python dictionary). -/
structure Mpdu where
  framectrl : FrameCtrl
  duration : Duration
  addr1 : String
  offset : Nat
  stripped : Nat
  present : List String
  err : List (String × String)
  fcs : Option Nat := none
  addr2 : Option String := none
  addr3 : Option String := none
  seqctrl : Option SeqCtrl := none
  addr4 : Option String := none
  qos : Option QosCtrl := none
  fixedParams : Option PyVal := none
  actionEl : Option Bytes := none
  infoElements : Option (List (Nat × PyVal)) := none
  barctrl : Option BaCtrl := none
  bactrl : Option BaCtrl := none
  barinfo : Option PyVal := none
  bainfo : Option PyVal := none
  carriedframectrl : Option (List Nat) := none
  htc : Option Nat := none
  carriedframe : Option Bytes := none
  l3crypt : Option L3Crypt := none

/-- Whether the Python record dictionary has the given key.  The bookkeeping
keys and the three mandatory header fields are always present; optional keys
are present exactly when set. -/
def hasKey (m : Mpdu) (t : String) : Bool :=
  if t = "framectrl" ∨ t = "duration" ∨ t = "addr1" ∨ t = "offset" ∨
     t = "stripped" ∨ t = "present" ∨ t = "err" then true
  else if t = "fcs" then m.fcs.isSome
  else if t = "addr2" then m.addr2.isSome
  else if t = "addr3" then m.addr3.isSome
  else if t = "seqctrl" then m.seqctrl.isSome
  else if t = "addr4" then m.addr4.isSome
  else if t = "qos" then m.qos.isSome
  else if t = "fixed-params" then m.fixedParams.isSome
  else if t = "action-el" then m.actionEl.isSome
  else if t = "info-elements" then m.infoElements.isSome
  else if t = "barctrl" then m.barctrl.isSome
  else if t = "bactrl" then m.bactrl.isSome
  else if t = "barinfo" then m.barinfo.isSome
  else if t = "bainfo" then m.bainfo.isSome
  else if t = "carriedframectrl" then m.carriedframectrl.isSome
  else if t = "htc" then m.htc.isSome
  else if t = "carriedframe" then m.carriedframe.isSome
  else if t = "l3-crypt" then m.l3crypt.isSome
  else false

/-! ### the per-element decoders (`_parseie_` and its helpers) -/

/-- How `_parseie_` can fail: `unpack` models the `error(eid, e)` it raises
after catching `struct.error`/`IndexError`; `generic` models any other
exception escaping it (the `except Exception` arm of the element loop). -/
inductive IeErr where
  | unpack (eid : Nat)
  | generic
  deriving Repr, DecidableEq

/-- `_getrate_`: `(val & 0x7f) * 0.5` Mbps. -/
def getrate (val : Nat) : Rat := (leastx 7 val : Rat) / 2

/-- `_eiderp_`. -/
def eiderp (v : Nat) : PyVal :=
  .dict [("non-erp", bint (bitset 1 v)), ("use-protect", bint (bitset 2 v)),
         ("barker", bint (bitset 4 v)), ("rsrv", .int (mostx 3 v))]

/-- `_eidsched_`. -/
def eidsched (v : Nat) : PyVal :=
  .dict [("aggregation", bint (bitset 1 v)), ("tsid", .int (midx 1 4 v)),
         ("direction", .int (midx 5 2 v)), ("rsrv", .int (mostx 7 v))]

/-- `_eidftcappol_`. -/
def eidftcappol (v : Nat) : PyVal :=
  .dict [("fast-bss", bint (bitset 1 v)), ("res-req", bint (bitset 2 v)),
         ("rsrv", .int (mostx 2 v))]

/-- `_eid2040coexist_`. -/
def eid2040coexist (v : Nat) : PyVal :=
  .dict [("info-req", bint (bitset 1 v)), ("40-intol", bint (bitset 2 v)),
         ("20-req", bint (bitset 4 v)), ("exempt-req", bint (bitset 8 v)),
         ("exempt-grant", bint (bitset 16 v)), ("rsrv", .int (mostx 5 v))]

/-- `_eidtpubuffstat_`. -/
def eidtpubuffstat (v : Nat) : PyVal :=
  .dict [("ac-bk", bint (bitset 1 v)), ("ac-be", bint (bitset 2 v)),
         ("ac-vi", bint (bitset 4 v)), ("ac-vo", bint (bitset 8 v)),
         ("rsrv", .int (mostx 4 v))]

/-- `_eidbssmaxidle_`. -/
def eidbssmaxidle (v : Nat) : PyVal :=
  .dict [("pro-keep-alive", .int (leastx 1 v)), ("rsrv", .int (mostx 1 v))]

/-- `_eidmeshconfigform_`. -/
def eidmeshconfigform (v : Nat) : PyVal :=
  .dict [("mesh-connect", bint (bitset 1 v)), ("as-connect", bint (bitset 128 v)),
         ("num-peerings", .int (midx 1 6 v))]

/-- `_eidmeshconfigcap_`. -/
def eidmeshconfigcap (v : Nat) : PyVal :=
  .dict [("accept", bint (bitset 1 v)), ("mcca-support", bint (bitset 2 v)),
         ("mcca-enable", bint (bitset 4 v)), ("forwarding", bint (bitset 8 v)),
         ("mbca", bint (bitset 16 v)), ("tbtt", bint (bitset 32 v)),
         ("pwr-save", bint (bitset 64 v)), ("rsrv", bint (bitset 128 v))]

/-- An element decoded by `struct.unpack_from('=B', info)` into a bare int. -/
def ieU8Int (eid : Nat) (info : Bytes) : Except IeErr (Nat × PyVal) :=
  match upk [.u8] info 0 with
  | some vs => .ok (eid, .int (vs.getD 0 0))
  | none => .error (.unpack eid)

/-- An element decoded by `struct.unpack_from('=H', info)` into a bare int. -/
def ieU16Int (eid : Nat) (info : Bytes) : Except IeErr (Nat × PyVal) :=
  match upk [.u16] info 0 with
  | some vs => .ok (eid, .int (vs.getD 0 0))
  | none => .error (.unpack eid)

/-- A one-byte element post-processed by a bit-field helper. -/
def ieU8With (eid : Nat) (info : Bytes) (g : Nat → PyVal) :
    Except IeErr (Nat × PyVal) :=
  match upk [.u8] info 0 with
  | some vs => .ok (eid, g (vs.getD 0 0))
  | none => .error (.unpack eid)

/-- Python 2 two's-complement reading of a `b` (signed byte) field. -/
def signed8 (n : Nat) : Int := if n < 128 then (n : Int) else (n : Int) - 256

/-- `_parseie_(eid, info)` of `mpdu.py`: the element dispatch.  Branches the
source leaves as `pass` return the raw byte string; unknown element ids fall
to the `{'rsrv': info}` dictionary; unpack failures raise `error(eid, e)`,
modelled by `IeErr.unpack eid`.  The element-id constants are inlined as the
numerals of the `EID_*` constants of the source. -/
def parseIe (eid : Nat) (info : Bytes) : Except IeErr (Nat × PyVal) :=
  match eid with
  | 0 => -- EID_SSID: attempt a UTF-8 decode, keep the bytes on failure
    match utf8Dec info with
    | some cps => .ok (0, .uni cps)
    | none => .ok (0, .bytes info)
  | 1 => .ok (1, .list (info.map (fun r => .flo (getrate r))))
  | 50 => .ok (50, .list (info.map (fun r => .flo (getrate r))))
  | 2 => -- EID_FH
    match upk [.u16, .u8, .u8, .u8] info 0 with
    | some vs => .ok (2, .dict [("dwell-time", .int (vs.getD 0 0)),
                                ("hop-set", .int (vs.getD 1 0)),
                                ("hop-patterin", .int (vs.getD 2 0)),
                                ("hop-index", .int (vs.getD 3 0))])
    | none => .error (.unpack 2)
  | 3 => -- EID_DSSS uses struct.unpack, which demands the exact length 1
    if info.length = 1 then .ok (3, .int (info.getD 0 0)) else .error (.unpack 3)
  | 4 => -- EID_CF
    match upk [.u8, .u8, .u16, .u16] info 0 with
    | some vs => .ok (4, .dict [("cfp-cnt", .int (vs.getD 0 0)),
                                ("cfp-per", .int (vs.getD 1 0)),
                                ("max-dur", .int (vs.getD 2 0)),
                                ("dur-remaining", .int (vs.getD 3 0))])
    | none => .error (.unpack 4)
  | 5 => -- EID_TIM
    match upk [.u8, .u8, .u8] info 0 with
    | some vs =>
      .ok (5, .dict [("dtim-cnt", .int (vs.getD 0 0)),
                     ("dtim-per", .int (vs.getD 1 0)),
                     ("bm-ctrl", .dict [("tib", .int (leastx 1 (vs.getD 2 0))),
                                        ("offset", .int (mostx 1 (vs.getD 2 0)))]),
                     ("vir-bm", .bytes (pyFrom info 3))])
    | none => .error (.unpack 5)
  | 6 => ieU16Int 6 info
  | 8 => -- EID_HOP_PARAMS
    match upk [.u8, .u8] info 0 with
    | some vs => .ok (8, .dict [("prime-rad", .int (vs.getD 0 0)),
                                ("num-channels", .int (vs.getD 1 0))])
    | none => .error (.unpack 8)
  | 9 => -- EID_HOP_TABLE
    match upk [.u8, .u8, .u8, .u8] info 0 with
    | some vs => .ok (9, .dict [("flag", .int (vs.getD 0 0)),
                                ("num-sets", .int (vs.getD 1 0)),
                                ("modulus", .int (vs.getD 2 0)),
                                ("offset", .int (vs.getD 3 0)),
                                ("rtab", .list ((pyFrom info 4).map .int))])
    | none => .error (.unpack 9)
  | 11 => -- EID_BSS_LOAD
    match upk [.u16, .u8, .u16] info 0 with
    | some vs => .ok (11, .dict [("sta-cnt", .int (vs.getD 0 0)),
                                 ("ch-util", .int (vs.getD 1 0)),
                                 ("avail-cap", .int (vs.getD 2 0))])
    | none => .error (.unpack 11)
  | 15 => -- EID_SCHED
    match upk [.u16, .u32, .u32, .u32] info 0 with
    | some vs => .ok (15, .dict [("sched-info", eidsched (vs.getD 0 0)),
                                 ("ser-start", .int (vs.getD 1 0)),
                                 ("ser-int", .int (vs.getD 2 0)),
                                 ("spec-int", .int (vs.getD 3 0))])
    | none => .error (.unpack 15)
  | 32 => ieU8Int 32 info
  | 33 => -- EID_PWR_CAPABILITY
    match upk [.u8, .u8] info 0 with
    | some vs => .ok (33, .dict [("min", .int (vs.getD 0 0)),
                                 ("max", .int (vs.getD 1 0))])
    | none => .error (.unpack 33)
  | 35 => -- EID_TPC_RPT, the second field is a signed byte
    match upk [.u8, .u8] info 0 with
    | some vs => .ok (35, .dict [("tx-power", .int (vs.getD 0 0)),
                                 ("link-margin", .sint (signed8 (vs.getD 1 0)))])
    | none => .error (.unpack 35)
  | 37 => -- EID_CH_SWITCH
    match upk [.u8, .u8, .u8] info 0 with
    | some vs => .ok (37, .dict [("mode", .int (vs.getD 0 0)),
                                 ("new-ch", .int (vs.getD 1 0)),
                                 ("cnt", .int (vs.getD 2 0))])
    | none => .error (.unpack 37)
  | 40 => -- EID_QUIET
    match upk [.u8, .u8, .u16, .u16] info 0 with
    | some vs => .ok (40, .dict [("cnt", .int (vs.getD 0 0)),
                                 ("per", .int (vs.getD 1 0)),
                                 ("dur", .int (vs.getD 2 0)),
                                 ("offset", .int (vs.getD 3 0))])
    | none => .error (.unpack 40)
  | 42 => ieU8With 42 info eiderp
  | 43 => -- EID_TS_DELAY
    match upk [.u32] info 0 with
    | some vs => .ok (43, .int (vs.getD 0 0))
    | none => .error (.unpack 43)
  | 44 => ieU8Int 44 info
  | 46 => ieU8Int 46 info
  | 53 => ieU8Int 53 info
  | 54 => -- EID_MDE
    match upk [.u16, .u8] info 0 with
    | some vs => .ok (54, .dict [("mdid", .int (vs.getD 0 0)),
                                 ("ft-cap-pol", eidftcappol (vs.getD 1 0))])
    | none => .error (.unpack 54)
  | 56 => -- EID_TIE
    match upk [.u8, .u32] info 0 with
    | some vs => .ok (56, .dict [("int-type", .int (vs.getD 0 0)),
                                 ("int-val", .int (vs.getD 1 0))])
    | none => .error (.unpack 56)
  | 57 => -- EID_RDE
    match upk [.u8, .u8, .u16] info 0 with
    | some vs => .ok (57, .dict [("rde-id", .int (vs.getD 0 0)),
                                 ("rd-cnt", .int (vs.getD 1 0)),
                                 ("status", .int (vs.getD 2 0))])
    | none => .error (.unpack 57)
  | 59 => -- EID_OP_CLASSES: the source keeps the one-element unpack tuple
    match upk [.u8] info 0 with
    | some vs => .ok (59, .dict [("op-class", .tup [.int (vs.getD 0 0)]),
                                 ("op-classes", .bytes (pyFrom info 1))])
    | none => .error (.unpack 59)
  | 60 => -- EID_EXT_CH_SWITCH
    match upk [.u8, .u8, .u8, .u8] info 0 with
    | some vs => .ok (60, .dict [("switch-mode", .int (vs.getD 0 0)),
                                 ("op-class", .int (vs.getD 1 0)),
                                 ("new-ch", .int (vs.getD 2 0)),
                                 ("switch-cnt", .int (vs.getD 3 0))])
    | none => .error (.unpack 60)
  | 62 => ieU8Int 62 info
  | 63 => ieU8Int 63 info
  | 64 => ieU8Int 64 info
  | 65 => ieU8Int 65 info
  | 68 => -- EID_BSS_AC_DELAY
    match upk [.u8, .u8, .u8, .u8] info 0 with
    | some vs => .ok (68, .dict [("ac-be", .int (vs.getD 0 0)),
                                 ("ac-bk", .int (vs.getD 1 0)),
                                 ("ac-vi", .int (vs.getD 2 0)),
                                 ("ac-vo", .int (vs.getD 3 0))])
    | none => .error (.unpack 68)
  | 72 => ieU8With 72 info eid2040coexist
  | 74 => -- EID_OVERLAPPING_BSS
    match upk [.u16, .u16, .u16, .u16, .u16, .u16, .u16] info 0 with
    | some vs => .ok (74, .dict [("pass-dwell", .int (vs.getD 0 0)),
                                 ("act-dwell", .int (vs.getD 1 0)),
                                 ("trigger-scan-int", .int (vs.getD 2 0)),
                                 ("pass-per-ch", .int (vs.getD 3 0)),
                                 ("act-per-ch", .int (vs.getD 4 0)),
                                 ("delay-factor", .int (vs.getD 5 0)),
                                 ("threshold", .int (vs.getD 6 0))])
    | none => .error (.unpack 74)
  | 83 => ieU16Int 83 info
  | 90 => -- EID_BSS_MAX_IDLE
    match upk [.u16, .u8] info 0 with
    | some vs => .ok (90, .dict [("max-idle-per", .int (vs.getD 0 0)),
                                 ("idle-ops", eidbssmaxidle (vs.getD 1 0))])
    | none => .error (.unpack 90)
  | 93 => -- EID_WNM_SLEEP
    match upk [.u8, .u8, .u16] info 0 with
    | some vs => .ok (93, .dict [("act-type", .int (vs.getD 0 0)),
                                 ("resp-status", .int (vs.getD 1 0)),
                                 ("interval", .int (vs.getD 2 0))])
    | none => .error (.unpack 93)
  | 94 => ieU8Int 94 info
  | 96 => -- EID_COLLOCATED_INTERFERENCE
    match upk [.u8, .u8, .u8, .u32, .u32, .u32, .u32, .u16] info 0 with
    | some vs => .ok (96, .dict [("period", .int (vs.getD 0 0)),
                                 ("intf-lvl", .int (vs.getD 1 0)),
                                 ("accuracy", .int (leastx 4 (vs.getD 2 0))),
                                 ("intf-idx", .int (mostx 4 (vs.getD 2 0))),
                                 ("intf-intv", .int (vs.getD 3 0)),
                                 ("intf-burst", .int (vs.getD 4 0)),
                                 ("intf-cycle", .int (vs.getD 5 0)),
                                 ("intf-cf", .int (vs.getD 6 0)),
                                 ("intf-bw", .int (vs.getD 7 0))])
    | none => .error (.unpack 96)
  | 101 => -- EID_LINK_ID
    match upk fmtAddr info 0, upk fmtAddr info 6, upk fmtAddr info 12 with
    | some a, some b, some c =>
      .ok (101, .dict [("bssid", .str (hwaddr a)),
                       ("initiator", .str (hwaddr b)),
                       ("responder", .str (hwaddr c))])
    | _, _, _ => .error (.unpack 101)
  | 102 => -- EID_WAKEUP_SCHED
    match upk [.u32, .u32, .u32, .u32, .u16] info 0 with
    | some vs => .ok (102, .dict [("offset", .int (vs.getD 0 0)),
                                  ("interval", .int (vs.getD 1 0)),
                                  ("win-slots", .int (vs.getD 2 0)),
                                  ("max-awake-dur", .int (vs.getD 3 0)),
                                  ("idle-cnt", .int (vs.getD 4 0))])
    | none => .error (.unpack 102)
  | 104 => -- EID_CH_SWITCH_TIMING
    match upk [.u16, .u16] info 0 with
    | some vs => .ok (104, .dict [("switch-time", .int (vs.getD 0 0)),
                                  ("switch-timeout", .int (vs.getD 1 0))])
    | none => .error (.unpack 104)
  | 105 => -- EID_PTI_CTRL
    match upk [.u8, .u16] info 0 with
    | some vs => .ok (105, .dict [("tid", .int (vs.getD 0 0)),
                                  ("seq-ctrl", .int (vs.getD 1 0))])
    | none => .error (.unpack 105)
  | 106 => ieU8With 106 info eidtpubuffstat
  | 109 => ieU8Int 109 info
  | 112 => .ok (112, .str (hexlify info))
  | 113 => -- EID_MESH_CONFIG
    match upk [.u8, .u8, .u8, .u8, .u8, .u8, .u8] info 0 with
    | some vs => .ok (113, .dict [("path-proto-id", .int (vs.getD 0 0)),
                                  ("path-metric-id", .int (vs.getD 1 0)),
                                  ("congest-mode-id", .int (vs.getD 2 0)),
                                  ("sync-id", .int (vs.getD 3 0)),
                                  ("auth-proto-id", .int (vs.getD 4 0)),
                                  ("mesh-form-id", eidmeshconfigform (vs.getD 5 0)),
                                  ("mesh-cap", eidmeshconfigcap (vs.getD 6 0))])
    | none => .error (.unpack 113)
  | 116 => -- EID_CONGESTION: a stray trailing comma makes mesh-sta a tuple
    match upk fmtAddr info 0, upk [.u16, .u16, .u16, .u16] info 6 with
    | some a, some vs =>
      .ok (116, .dict [("mesh-sta", .tup [.str (hwaddr a)]),
                       ("ac-be", .int (vs.getD 1 0)),
                       ("ac-bk", .int (vs.getD 0 0)),
                       ("ac-vi", .int (vs.getD 2 0)),
                       ("ac-vo", .int (vs.getD 3 0))])
    | _, _ => .error (.unpack 116)
  | 118 => -- EID_MESH_CH_SWITCH_PARAM: the source unpacks five values into
           -- four targets, so a successful unpack always raises ValueError
    if info.length < 7 then .error (.unpack 118) else .error .generic
  | 119 => ieU16Int 119 info
  | 125 => -- EID_GANN
    match upk [.u8, .u8, .u8] info 0, upk fmtAddr info 3, upk [.u32, .u16] info 9 with
    | some hs, some mesh, some ts =>
      .ok (125, .dict [("flags", .int (hs.getD 0 0)),
                       ("hop-cnt", .int (hs.getD 1 0)),
                       ("element-ttl", .int (hs.getD 2 0)),
                       ("mesh-gate", .str (hwaddr mesh)),
                       ("gann-seq-num", .int (ts.getD 0 0)),
                       ("interval", .int (ts.getD 1 0))])
    | _, _, _ => .error (.unpack 125)
  | 126 => -- EID_RANN
    match upk [.u8, .u8, .u8] info 0, upk fmtAddr info 3,
          upk [.u32, .u32, .u32] info 9 with
    | some hs, some mesh, some ts =>
      .ok (126, .dict [("flags", .dict [("gate-announce", .int (leastx 1 (hs.getD 0 0))),
                                        ("rsrv", .int (mostx 1 (hs.getD 0 0)))]),
                       ("hop-cnt", .int (hs.getD 1 0)),
                       ("element-ttl", .int (hs.getD 2 0)),
                       ("root-mesh", .str (hwaddr mesh)),
                       ("hwmp-seq-num", .int (ts.getD 0 0)),
                       ("interval", .int (ts.getD 1 0)),
                       ("metric", .int (ts.getD 2 0))])
    | _, _, _ => .error (.unpack 126)
  | 138 => -- EID_PXUC
    match upk [.u8, .u8, .u8, .u8, .u8, .u8, .u8] info 0 with
    | some vs => .ok (138, .dict [("pxu-id", .int (vs.getD 0 0)),
                                  ("pxu-recipient", .str (hwaddr (vs.drop 1)))])
    | none => .error (.unpack 138)
  | 141 => -- EID_DEST_URI
    match upk [.u8] info 0 with
    | some vs => .ok (141, .dict [("ess-intv", .int (vs.getD 0 0)),
                                  ("uri", .bytes (pyFrom info 1))])
    | none => .error (.unpack 141)
  | 174 => -- EID_MCCAOP_ADV_OVERVIEW
    match upk [.u8, .u8, .u8, .u8, .u16] info 0 with
    | some vs => .ok (174, .dict [("adv-seq-num", .int (vs.getD 0 0)),
                                  ("flags", .dict [("accept", .int (leastx 1 (vs.getD 1 0))),
                                                   ("rsrv", .int (mostx 1 (vs.getD 1 0)))]),
                                  ("mcca-access-frac", .int (vs.getD 2 0)),
                                  ("maf-lim", .int (vs.getD 3 0)),
                                  ("adv-els-bm", .int (vs.getD 4 0))])
    | none => .error (.unpack 174)
  | 221 => -- EID_VEND_SPEC
    match upk [.u8, .u8, .u8] info 0 with
    | some vs =>
      .ok (221, .dict [("oui", .str (String.intercalate ":" (vs.map hex02U))),
                       ("content", .bytes (pyFrom info 3))])
    | none => .error (.unpack 221)
  | 7 | 10 | 12 | 13 | 14 | 16 | 34 | 36 | 38 | 39 | 41 | 45 | 48 | 51 | 52
  | 55 | 58 | 61 | 66 | 67 | 69 | 70 | 71 | 73 | 75 | 76 | 78 | 79 | 80 | 81
  | 82 | 84 | 85 | 86 | 87 | 88 | 89 | 91 | 92 | 95 | 97 | 98 | 99 | 100
  | 107 | 108 | 110 | 111 | 114 | 115 | 117 | 120 | 121 | 122 | 123 | 124
  | 127 | 130 | 131 | 132 | 137 | 139 | 140 | 142 =>
    -- the branches the source leaves as `pass`: the info bytes pass through
    .ok (eid, .bytes info)
  | _ => .ok (eid, .dict [("rsrv", .bytes info)])

/-! ### the information-element loop of `_parsemgmt_` (`mpdu.py`) -/

/-- The state the element loop works on: the cursor, the errors it appends
and the `(eid, value)` tuples collected in `info-elements`. -/
structure IeState where
  offset : Nat
  errs : List (String × String)
  ies : List (Nat × PyVal)

/-- One successful iteration of the loop body: read `eid` and `elen`, slice
the info field, advance the cursor by `2 + elen`, decode, and either append
the decoded `(eid, value)` tuple or the error entry of the matching
`except` arm. -/
def ieAdvance (f : Bytes) (s : IeState) : IeState :=
  let eid := f.getD s.offset 0
  let elen := f.getD (s.offset + 1) 0
  let ie := pyTake f (s.offset + 2) elen
  let off2 := s.offset + 2 + elen
  match parseIe eid ie with
  | .ok v => ⟨off2, s.errs, s.ies ++ [v]⟩
  | .error (.unpack e) =>
    ⟨off2, s.errs ++ [("mgmt.info-elements.eid-" ++ toString e, "parsing")], s.ies⟩
  | .error .generic =>
    ⟨off2, s.errs ++ [("mgmt.info-elements", "generic")], s.ies⟩

/-- One full iteration of the Python loop body of `mpdu.py`: when fewer than
two bytes remain before the end of the buffer, the `BB` unpack raises
`struct.error`, the generic handler appends its entry and the state is
otherwise unchanged — in particular the cursor does not move. -/
def ieStep (f : Bytes) (s : IeState) : IeState :=
  if s.offset + 2 ≤ f.length then ieAdvance f s
  else { s with errs := s.errs ++ [("mgmt.info-elements", "generic")] }

/-- Result of the element loop: `done` when the loop exits, `div` on the
states from which the Python loop never terminates (the cursor is strictly
inside the buffer but the two-byte header no longer fits, so every further
iteration repeats with the same cursor — see `ieStep_stuck_iterate`). -/
inductive IeRes where
  | done (s : IeState)
  | div (s : IeState)

/-- Structural engine of the element loop: `fuel` bounds the number of
iterations.  Each iteration consumes one unit of fuel, and `ieLoopRun`
supplies `f.length - s.offset`, which `ieLoopGo_fuel` shows is always
enough (every iteration advances the cursor by at least two bytes), so the
zero-fuel arm is only reached with the cursor already past the end. -/
def ieLoopGo : Nat → Bytes → IeState → IeRes
  | 0, _, s => .done s
  | fuel + 1, f, s =>
    if f.length ≤ s.offset then .done s
    else
      if s.offset + 2 ≤ f.length then ieLoopGo fuel f (ieAdvance f s)
      else .div s

/-- The `while m['offset'] < len(f)` element loop of `_parsemgmt_`. -/
def ieLoopRun (f : Bytes) (s : IeState) : IeRes :=
  ieLoopGo (f.length - s.offset) f s

/-- Structural engine of the pure element walk. -/
def ieWalkGo : Nat → Bytes → Nat → List (Nat × PyVal)
  | 0, _, _ => []
  | fuel + 1, f, off =>
    if f.length ≤ off then []
    else
      if off + 2 ≤ f.length then
        let rest := ieWalkGo fuel f (off + 2 + f.getD (off + 1) 0)
        match parseIe (f.getD off 0) (pyTake f (off + 2) (f.getD (off + 1) 0)) with
        | .ok v => v :: rest
        | .error _ => rest
      else []

/-- The pure walk underlying the loop: the `(eid, value)` tuples of the
elements that decode successfully, in buffer order. -/
def ieWalk (f : Bytes) (off : Nat) : List (Nat × PyVal) :=
  ieWalkGo (f.length - off) f off

/-! ### the information-element loop of `_parsemgmt_` (`_mpdu.py`) -/

/-- Association-list lookup, modelling `eid in d` and `d[eid]` on the
`info-elements` dictionary of the private variant. -/
def alookup (e : Nat) : List (Nat × α) → Option α
  | [] => none
  | (k, v) :: t => if k = e then some v else alookup e t

/-- The aggregation step of `_mpdu.py` (lines 415-416): append to the list
under an existing `eid` key, otherwise create a singleton list. -/
def dictAdd (d : List (Nat × List PyVal)) (e : Nat) (v : PyVal) :
    List (Nat × List PyVal) :=
  if (alookup e d).isSome then
    d.map (fun p => if p.1 = e then (p.1, p.2 ++ [v]) else p)
  else d ++ [(e, [v])]

/-- Loop state of the private variant: cursor, errors, and the
`info-elements` dictionary as an insertion-ordered association list. -/
structure PrivIeState where
  offset : Nat
  errs : List (String × String)
  ies : List (Nat × List PyVal)

/-- Structural engine of the private element loop. -/
def privIeLoopGo (dec : Nat → Bytes → Except IeErr PyVal) (f : Bytes) :
    Nat → PrivIeState → PrivIeState
  | 0, s => s
  | fuel + 1, s =>
    if f.length ≤ s.offset then s
    else
      if s.offset + 2 ≤ f.length then
        let eid := f.getD s.offset 0
        let elen := f.getD (s.offset + 1) 0
        let ie := pyTake f (s.offset + 2) elen
        let off2 := s.offset + 2 + elen
        match dec eid ie with
        | .ok v => privIeLoopGo dec f fuel ⟨off2, s.errs, dictAdd s.ies eid v⟩
        | .error _ =>
          privIeLoopGo dec f fuel
            ⟨off2, s.errs ++ [("mgmt.info-elements.eid-" ++ toString eid, "parsing")],
             s.ies⟩
      else { s with errs := s.errs ++ [("mgmt.info-elements", "parsing")] }

/-- The element loop of `_parsemgmt_` in `_mpdu.py`, parameterised by the
per-element decoder (its `_parseie_` returns the decoded value alone and
signals failure by `RuntimeError`): decode failures append an error entry
and continue; a failing `BB` unpack appends an error entry and breaks. -/
def privIeLoop (dec : Nat → Bytes → Except IeErr PyVal) (f : Bytes)
    (s : PrivIeState) : PrivIeState :=
  privIeLoopGo dec f (f.length - s.offset) s

/-- Structural engine of the private element walk. -/
def privWalkGo (dec : Nat → Bytes → Except IeErr PyVal) (f : Bytes) :
    Nat → Nat → List (Nat × PyVal)
  | 0, _ => []
  | fuel + 1, off =>
    if f.length ≤ off then []
    else
      if off + 2 ≤ f.length then
        let rest := privWalkGo dec f fuel (off + 2 + f.getD (off + 1) 0)
        match dec (f.getD off 0) (pyTake f (off + 2) (f.getD (off + 1) 0)) with
        | .ok v => (f.getD off 0, v) :: rest
        | .error _ => rest
      else []

/-- The successful `(eid, value)` pairs the private loop sees, in order. -/
def privWalk (dec : Nat → Bytes → Except IeErr PyVal) (f : Bytes) (off : Nat) :
    List (Nat × PyVal) :=
  privWalkGo dec f (f.length - off) off

/-- The values among `l` carried by key `e`, in order. -/
def filterVals (e : Nat) (l : List (Nat × PyVal)) : List PyVal :=
  l.filterMap (fun p => if p.1 = e then some p.2 else none)

/-- Merging a dictionary entry with values appended one at a time: no entry
and nothing to append stays no entry; otherwise the appended values extend
the (possibly fresh) list. -/
def combineOpt : Option (List PyVal) → List PyVal → Option (List PyVal)
  | none, [] => none
  | none, l => some l
  | some xs, l => some (xs ++ l)

/-! ### the management stage (`_parsemgmt_`, `mpdu.py`) -/

/-- `ST_MGMT_TYPES`. -/
def stMgmtTypes : List String :=
  ["assoc-req", "assoc-resp", "reassoc-req", "reassoc-resp", "probe-req",
   "probe-resp", "timing-adv", "mgmt-rsrv-7", "beacon", "atim", "disassoc",
   "auth", "deauth", "action", "action-noack", "mgmt-rsrv-15"]

/-- `ST_CTRL_TYPES`. -/
def stCtrlTypes : List String :=
  ["ctrl-rsrv-0", "ctrl-rsrv-1", "ctrl-rsrv-2", "ctrl-rsrv-3", "ctrl-rsrv-4",
   "ctrl-rsrv-5", "ctrl-rsrv-6", "wrapper", "block-ack-req", "block-ack",
   "pspoll", "rts", "cts", "ack", "cfend", "cfend-cfack"]

/-- The error entry of the fixed-parameter `except` arm of `_parsemgmt_`. -/
def mgmtErr (m : Mpdu) : Mpdu :=
  { m with err := m.err ++
      [("mgmt." ++ stMgmtTypes.getD m.framectrl.subtype "rsrv", "parsing")] }

/-- Store a fixed-parameter dictionary: set the key, advance the cursor by
the format size, append the tag. -/
def setFixed (m : Mpdu) (v : PyVal) (adv : Nat) : Mpdu :=
  { m with fixedParams := some v,
           offset := m.offset + adv,
           present := m.present ++ ["fixed-params"] }

/-- The per-subtype fixed-parameter block of `_parsemgmt_`. -/
def mgmtFixed (f : Bytes) (m : Mpdu) : Mpdu :=
  if m.framectrl.subtype = 0 then -- ST_MGMT_ASSOC_REQ
    match upk [.u16, .u16] f m.offset with
    | some vs =>
      setFixed m (.dict [("capability", capinfoAll (vs.getD 0 0)),
                         ("listen-int", .int (vs.getD 1 0))]) 4
    | none => mgmtErr m
  else if m.framectrl.subtype = 1 ∨ m.framectrl.subtype = 3 then -- ASSOC_RESP / REASSOC_RESP
    match upk [.u16, .u16, .u16] f m.offset with
    | some vs =>
      setFixed m (.dict [("capability", capinfoAll (vs.getD 0 0)),
                         ("status-code", .int (vs.getD 1 0)),
                         ("aid", .int (leastx 14 (vs.getD 2 0)))]) 6
    | none => mgmtErr m
  else if m.framectrl.subtype = 2 then -- REASSOC_REQ
    match upk ([.u16, .u16] ++ fmtAddr) f m.offset with
    | some vs =>
      setFixed m (.dict [("capability", capinfoAll (vs.getD 0 0)),
                         ("listen-int", .int (vs.getD 1 0)),
                         ("current-ap", .str (hwaddr (vs.drop 2)))]) 10
    | none => mgmtErr m
  else if m.framectrl.subtype = 6 then -- TIMING_ADV
    match upk [.u64, .u16] f m.offset with
    | some vs =>
      setFixed m (.dict [("timestamp", .int (vs.getD 0 0)),
                         ("capability", capinfoAll (vs.getD 1 0))]) 10
    | none => mgmtErr m
  else if m.framectrl.subtype = 5 ∨ m.framectrl.subtype = 8 then -- PROBE_RESP / BEACON
    match upk [.u64, .u16, .u16] f m.offset with
    | some vs =>
      setFixed m (.dict [("timestamp", .int (vs.getD 0 0)),
                         ("beacon-int", .int (vs.getD 1 0 * 1024)),
                         ("capability", capinfoAll (vs.getD 2 0))]) 12
    | none => mgmtErr m
  else if m.framectrl.subtype = 10 ∨ m.framectrl.subtype = 12 then -- DISASSOC / DEAUTH
    match upk [.u16] f m.offset with
    | some vs => setFixed m (.dict [("reason-code", .int (vs.getD 0 0))]) 2
    | none => mgmtErr m
  else if m.framectrl.subtype = 11 then -- AUTH
    match upk [.u16, .u16, .u16] f m.offset with
    | some vs =>
      setFixed m (.dict [("algorithm-no", .int (vs.getD 0 0)),
                         ("auth-seq", .int (vs.getD 1 0)),
                         ("status-code", .int (vs.getD 2 0))]) 6
    | none => mgmtErr m
  else if m.framectrl.subtype = 13 ∨ m.framectrl.subtype = 14 then -- ACTION / ACTION_NOACK
    match upk [.u8, .u8] f m.offset with
    | some vs =>
      let m1 := setFixed m (.dict [("category", .int (vs.getD 0 0)),
                                   ("action", .int (vs.getD 1 0))]) 2
      if m1.offset < f.length then
        -- the action elements: note the key is action-el but the tag
        -- appended to present is action-els
        { m1 with actionEl := some (pyFrom f m1.offset),
                  present := m1.present ++ ["action-els"],
                  offset := f.length }
      else m1
    | none => mgmtErr m
  else m -- PROBE_REQ, ATIM and the reserved subtypes add nothing

/-- The addr2/addr3/seqctrl read of `_parsemgmt_`. -/
def mgmtAddrs (f : Bytes) (m : Mpdu) : Mpdu :=
  match upk fmtAddr2Addr3Seq f m.offset with
  | some vs =>
    { m with addr2 := some (hwaddr (vs.take 6)),
             addr3 := some (hwaddr ((vs.drop 6).take 6)),
             seqctrl := some (seqctrlOf (vs.getD 12 0)),
             offset := m.offset + 14,
             present := m.present ++ ["addr2", "addr3", "seqctrl"] }
  | none => { m with err := m.err ++ [("mgmt", "unpacking addr2,addr3,sequctrl")] }

/-- The element-loop part of `_parsemgmt_`: entered only when bytes remain;
`none` models the diverging loop. -/
def mgmtIes (f : Bytes) (m2 : Mpdu) : Option Mpdu :=
  if m2.offset < f.length then
    match ieLoopRun f ⟨m2.offset, [], []⟩ with
    | .done s => some { m2 with infoElements := some s.ies,
                                present := m2.present ++ ["info-elements"],
                                offset := s.offset, err := m2.err ++ s.errs }
    | .div _ => none
  else some m2

/-- `_parsemgmt_`: addr2/addr3/seqctrl, fixed parameters, element loop. -/
def mgmtStage (f : Bytes) (m : Mpdu) : Option Mpdu :=
  mgmtIes f (mgmtFixed f (mgmtAddrs f m))

/-! ### the control stage (`_parsectrl_`, `mpdu.py`) -/

/-- The addr2 read shared by several control subtypes. -/
def ctrlAddr2 (f : Bytes) (m : Mpdu) (loc : String) : Mpdu :=
  match upk fmtAddr f m.offset with
  | some vs => { m with addr2 := some (hwaddr vs), offset := m.offset + 6,
                        present := m.present ++ ["addr2"] }
  | none => { m with err := m.err ++ [(loc, "unpacking")] }

/-- The `_pertid_` key/value list (so a `babitmap` entry can be added). -/
def pertidKvs (v0 v1 : Nat) : List (String × PyVal) :=
  seqctrlPy v1 ++
  [("pertid-rsrv", .int (leastx 12 v0)), ("pertid-tid", .int (mostx 12 v0))]

/-- The per-TID loop of the multi-TID BlockAckReq: at most `n` records of
two `u16`s each; stops early (flagging the error) when an unpack fails. -/
def perTidBar (f : Bytes) : Nat → Nat → List PyVal → Nat × List PyVal × Bool
  | 0, off, acc => (off, acc, false)
  | n + 1, off, acc =>
    match upk [.u16, .u16] f off with
    | some vs =>
      perTidBar f n (off + 4) (acc ++ [.dict (pertidKvs (vs.getD 0 0) (vs.getD 1 0))])
    | none => (off, acc, true)

/-- The per-TID loop of the multi-TID BlockAck: as `perTidBar` but each
record also grabs the eight `babitmap` bytes after its sequence control. -/
def perTidBa (f : Bytes) : Nat → Nat → List PyVal → Nat × List PyVal × Bool
  | 0, off, acc => (off, acc, false)
  | n + 1, off, acc =>
    match upk [.u16, .u16] f off with
    | some vs =>
      perTidBa f n (off + 4 + 8)
        (acc ++ [.dict (pertidKvs (vs.getD 0 0) (vs.getD 1 0) ++
                        [("babitmap", .bytes (pyTake f (off + 4) 8))])])
    | none => (off, acc, true)

/-- The bar-control read of the BlockAckReq arm. -/
def barCtrlRead (f : Bytes) (m1 : Mpdu) : Mpdu :=
  match upk [.u16] f m1.offset with
  | some vs => { m1 with barctrl := some (bactrlOf (vs.getD 0 0)),
                         offset := m1.offset + 2,
                         present := m1.present ++ ["barctrl"] }
  | none => { m1 with err := m1.err ++ [("ctrl.ctrl-block-ack-req.barctrl", "unpacking")] }

/-- The bar-info read of the BlockAckReq arm. -/
def barInfoRead (f : Bytes) (m2 : Mpdu) : Mpdu :=
  match m2.barctrl with
  | none => -- the KeyError on the missing barctrl, caught by the outer arm
    { m2 with err := m2.err ++ [("ctrl.ctrl-block-ack-req.barinfo", "unpacking")] }
  | some bc =>
    if bc.multiTid = false then
      let bc1 := { bc with btype := some (if bc.compressedBm then "compressed" else "basic") }
      match upk [.u16] f m2.offset with
      | some vs => { m2 with barctrl := some bc1,
                             barinfo := some (.dict (seqctrlPy (vs.getD 0 0))),
                             offset := m2.offset + 2 }
      | none => -- the type key was already mutated before the failed unpack
        { m2 with barctrl := some bc1,
                  err := m2.err ++ [("ctrl.ctrl-block-ack-req.barinfo", "unpacking")] }
    else
      if bc.compressedBm = false then
        { m2 with barctrl := some { bc with btype := some "reserved" },
                  barinfo := some (.dict [("unparsed", .bytes (pyFrom f m2.offset))]),
                  offset := m2.offset + (pyFrom f m2.offset).length }
      else
        let r := perTidBar f (bc.tidInfo + 1) m2.offset []
        { m2 with barctrl := some { bc with btype := some "multi-tid" },
                  barinfo := some (.dict [("tids", .list r.2.1)]),
                  offset := r.1,
                  err := m2.err ++
                    (if r.2.2 then [("ctrl.ctrl-block-ack-req.barinfo.tids", "unpacking")]
                     else []) }

/-- The `ST_CTRL_BLOCK_ACK_REQ` arm of `_parsectrl_`. -/
def barStage (f : Bytes) (m : Mpdu) : Mpdu :=
  barInfoRead f (barCtrlRead f (ctrlAddr2 f m "ctrl.ctrl-block-ack-req.addr2"))

/-- The ba-control read of the BlockAck arm. -/
def baCtrlRead (f : Bytes) (m1 : Mpdu) : Mpdu :=
  match upk [.u16] f m1.offset with
  | some vs => { m1 with bactrl := some (bactrlOf (vs.getD 0 0)),
                         offset := m1.offset + 2,
                         present := m1.present ++ ["bactrl"] }
  | none => { m1 with err := m1.err ++ [("ctrl.ctrl-block-ack.bactrl", "unpacking")] }

/-- The ba-info read of the BlockAck arm. -/
def baInfoRead (f : Bytes) (m2 : Mpdu) : Mpdu :=
  match m2.bactrl with
  | none => { m2 with err := m2.err ++ [("ctrl.ctrl-block-ack.bainfo", "unpacking")] }
  | some bc =>
    if bc.multiTid = false then
      match upk [.u16] f m2.offset with
      | none => -- seqctrl unpack fails before any type mutation
        { m2 with err := m2.err ++ [("ctrl.ctrl-block-ack.bainfo", "unpacking")] }
      | some vs =>
        let m3 := { m2 with offset := m2.offset + 2 }
        if bc.compressedBm = false then
          { m3 with bactrl := some { bc with btype := some "basic" },
                    bainfo := some (.dict (seqctrlPy (vs.getD 0 0) ++
                      [("babitmap", .bytes (pyTake f m3.offset 128))])),
                    offset := m3.offset + 128 }
        else
          { m3 with bactrl := some { bc with btype := some "compressed" },
                    bainfo := some (.dict (seqctrlPy (vs.getD 0 0) ++
                      [("babitmap", .bytes (pyTake f m3.offset 8))])),
                    offset := m3.offset + 8 }
    else
      if bc.compressedBm = false then
        -- reserved: unlike the BAR case the cursor is not advanced here
        { m2 with bactrl := some { bc with btype := some "reserved" },
                  bainfo := some (.dict [("unparsed", .bytes (pyFrom f m2.offset))]) }
      else
        let r := perTidBa f (bc.tidInfo + 1) m2.offset []
        { m2 with bactrl := some { bc with btype := some "multi-tid" },
                  bainfo := some (.dict [("tids", .list r.2.1)]),
                  offset := r.1,
                  err := m2.err ++
                    (if r.2.2 then [("ctrl.ctrl-block-ack.bainfo.tids", "unpacking")]
                     else []) }

/-- The `ST_CTRL_BLOCK_ACK` arm of `_parsectrl_`. -/
def baStage (f : Bytes) (m : Mpdu) : Mpdu :=
  baInfoRead f (baCtrlRead f (ctrlAddr2 f m "ctrl.ctrl-block-ack.addr2"))

/-- The carried-frame-control read of the wrapper arm. -/
def wrapCfc (f : Bytes) (m : Mpdu) : Mpdu :=
  match upk [.u8, .u8] f m.offset with
  | some vs => { m with carriedframectrl := some vs, offset := m.offset + 2,
                        present := m.present ++ ["carriedframectrl"] }
  | none => { m with err := m.err ++ [("ctrl.ctrl-wrapper.carriedframectrl", "unpacking")] }

/-- The HT-control read of the wrapper arm. -/
def wrapHtc (f : Bytes) (m1 : Mpdu) : Mpdu :=
  match upk [.u32] f m1.offset with
  | some vs => { m1 with htc := some (vs.getD 0 0), offset := m1.offset + 4,
                         present := m1.present ++ ["htc"] }
  | none => { m1 with err := m1.err ++ [("ctrl.ctrl-wrapper.htc", "unpacking")] }

/-- The carried-frame slice of the wrapper arm.  Note the final extend
appends the tag htc to `present` again even when the HT-control unpack
failed and no htc key exists. -/
def wrapCarried (f : Bytes) (m2 : Mpdu) : Mpdu :=
  { m2 with carriedframe := some (pyFrom f m2.offset),
            offset := m2.offset + (pyFrom f m2.offset).length,
            present := m2.present ++ ["htc", "carriedframe"] }

/-- The `ST_CTRL_WRAPPER` arm of `_parsectrl_`. -/
def wrapperStage (f : Bytes) (m : Mpdu) : Mpdu :=
  wrapCarried f (wrapHtc f (wrapCfc f m))

/-- `_parsectrl_`. -/
def ctrlStage (f : Bytes) (m : Mpdu) : Mpdu :=
  if m.framectrl.subtype = 12 ∨ m.framectrl.subtype = 13 then m -- CTS, ACK
  else if m.framectrl.subtype = 11 ∨ m.framectrl.subtype = 10 ∨
          m.framectrl.subtype = 14 ∨ m.framectrl.subtype = 15 then
    ctrlAddr2 f m ("ctrl." ++ stCtrlTypes.getD m.framectrl.subtype "rsrv")
  else if m.framectrl.subtype = 8 then barStage f m
  else if m.framectrl.subtype = 9 then baStage f m
  else if m.framectrl.subtype = 7 then wrapperStage f m
  else { m with err := m.err ++
          [("ctrl", "invalid subtype " ++ stCtrlTypes.getD m.framectrl.subtype "rsrv")] }

/-! ### the data stage (`_parsedata_`, `mpdu.py`) -/

/-- The addr2/addr3/seqctrl read of `_parsedata_`. -/
def dataAddrs (f : Bytes) (m : Mpdu) : Mpdu :=
  match upk fmtAddr2Addr3Seq f m.offset with
  | some vs =>
    { m with addr2 := some (hwaddr (vs.take 6)),
             addr3 := some (hwaddr ((vs.drop 6).take 6)),
             seqctrl := some (seqctrlOf (vs.getD 12 0)),
             offset := m.offset + 14,
             present := m.present ++ ["addr2", "addr3", "seqctrl"] }
  | none => { m with err := m.err ++ [("data", "unpacking addr2,addr3,seqctrl")] }

/-- The fourth-address read of `_parsedata_` (when ToDS and FromDS). -/
def dataA4 (f : Bytes) (m1 : Mpdu) : Mpdu :=
  if m1.framectrl.flags.td ∧ m1.framectrl.flags.fd then
    match upk fmtAddr f m1.offset with
    | some vs => { m1 with addr4 := some (hwaddr vs), offset := m1.offset + 6,
                           present := m1.present ++ ["addr4"] }
    | none => { m1 with err := m1.err ++ [("data.addr4", "unpacking")] }
  else m1

/-- The QoS-control read of `_parsedata_` (QoS subtypes 8..15). -/
def dataQos (f : Bytes) (m2 : Mpdu) : Mpdu :=
  if 8 ≤ m2.framectrl.subtype ∧ m2.framectrl.subtype ≤ 15 then
    match upk [.u8, .u8] f m2.offset with
    | some vs => { m2 with qos := some (qosctrlOf (vs.getD 0 0) (vs.getD 1 0)),
                           offset := m2.offset + 2,
                           present := m2.present ++ ["qos"] }
    | none => { m2 with err := m2.err ++ [("data.qos", "unpacking")] }
  else m2

/-- `_parsedata_`. -/
def dataStage (f : Bytes) (m : Mpdu) : Mpdu :=
  dataQos f (dataA4 f (dataAddrs f m))

/-! ### the encryption stage (`_wep_`, `_tkip_`, `_ccmp_` and the
discriminator in `parse`) -/

/-- `_wep_`: the key-id byte is unpacked at `offset + 3`; the IV and the
trailing ICV are slices and never fail. -/
def wepStage (f : Bytes) (m : Mpdu) : Mpdu :=
  match upk [.u8] f (m.offset + 3) with
  | some ks =>
    { m with l3crypt := some (.wep (pyTake f m.offset 4)
               (mostx 6 (ks.getD 0 0)) (takeLastN 4 f)),
             offset := m.offset + 4, stripped := m.stripped + 4 }
  | none => { m with err := m.err ++ [("l3-crypt.wep", "parsing")] }

/-- `_tkip_`: the key-id unpack needs `offset + 4` readable bytes and the
dictionary construction indexes bytes up to `offset + 7`; `struct.error`
and `IndexError` land in the same handler, so the whole body succeeds
exactly when `offset + 8 ≤ len(f)`. -/
def tkipStage (f : Bytes) (m : Mpdu) : Mpdu :=
  if m.offset + 8 ≤ f.length then
    let k := f.getD (m.offset + 3) 0
    { m with l3crypt := some (.tkip (f.getD m.offset 0) (f.getD (m.offset + 1) 0)
               (f.getD (m.offset + 2) 0)
               ⟨leastx 5 k, midx 5 1 k, mostx 6 k⟩
               (f.getD (m.offset + 4) 0) (f.getD (m.offset + 5) 0)
               (f.getD (m.offset + 6) 0) (f.getD (m.offset + 7) 0)
               (sliceNeg 12 4 f) (takeLastN 4 f)),
             offset := m.offset + 8, stripped := m.stripped + 12 }
  else { m with err := m.err ++ [("l3-crypt.tkip", "parsing")] }

/-- `_ccmp_`: pn5 is read from `_CCMP_PN0_BYTE_` (index `offset + 0`), not
from index `offset + 7`, so the largest index the body touches is
`offset + 6` and it succeeds exactly when `offset + 7 ≤ len(f)`. -/
def ccmpStage (f : Bytes) (m : Mpdu) : Mpdu :=
  if m.offset + 7 ≤ f.length then
    let k := f.getD (m.offset + 3) 0
    { m with l3crypt := some (.ccmp (f.getD m.offset 0) (f.getD (m.offset + 1) 0)
               (f.getD (m.offset + 2) 0)
               ⟨leastx 5 k, midx 5 1 k, mostx 6 k⟩
               (f.getD (m.offset + 4) 0) (f.getD (m.offset + 5) 0)
               (f.getD (m.offset + 6) 0)
               (f.getD (m.offset + 0) 0)
               (takeLastN 8 f)),
             offset := m.offset + 8, stripped := m.stripped + 8 }
  else { m with err := m.err ++ [("l3-crypt.ccmp", "parsing")] }

/-- The `if l3-crypt in m: present.append` step of the encryption pass. -/
def cryptTag (m1 : Mpdu) : Mpdu :=
  if m1.l3crypt.isSome then { m1 with present := m1.present ++ ["l3-crypt"] }
  else m1

/-- The encryption discriminator on the four bytes read at the cursor:
the ExtIV bit selects WEP against WPA, the WEP-seed test TKIP against
CCMP. -/
def cryptPick (f : Bytes) (m : Mpdu) (bs : List Nat) : Mpdu :=
  if (bs.getD 3 0) &&& 32 = 0 then wepStage f m
  else if ((bs.getD 0 0) ||| 32) &&& 127 = bs.getD 1 0 then tkipStage f m
  else ccmpStage f m

/-- The full encryption pass of `parse`. -/
def cryptStage (f : Bytes) (m : Mpdu) : Mpdu :=
  match upk [.u8, .u8, .u8, .u8] f m.offset with
  | none => { m with err := m.err ++ [("l3-crypt", "unpacking encryption")] }
  | some bs => cryptTag (cryptPick f m bs)

/-! ### `parse` -/

/-- What a call of `parse` does: return the `{'offset': 0}` sentinel on an
empty buffer, raise (`perror`) when the ten mandatory header bytes cannot
be unpacked, loop forever (`div`) when the element loop diverges, or
return the record. -/
inductive ParseOutcome where
  | empty
  | perror
  | div
  | ok (m : Mpdu)

/-- The record of an `ok` outcome. -/
def okRec : ParseOutcome → Option Mpdu
  | .ok m => some m
  | _ => none

/-- The record after the mandatory header (and the FCS read, when the
caller asserts one): frame control unpacked at 0, duration and addr1 at 2,
cursor at 10. -/
def headerRec (f : Bytes) (hasFCS : Bool) : Mpdu :=
  let f0 := f.getD 0 0
  let fc : FrameCtrl :=
    { vers := leastx 2 f0, ftype := midx 2 2 f0, subtype := mostx 4 f0,
      flags := fcflags (f.getD 1 0) }
  let m0 : Mpdu :=
    { framectrl := fc, duration := duration (readLE f 2 2),
      addr1 := hwaddr (pyTake f 4 6), offset := 10, stripped := 0,
      present := ["framectrl", "duration", "addr1"], err := [] }
  if hasFCS then
    { m0 with fcs := some (readLE (takeLastN 4 f) 0 4),
              stripped := m0.stripped + 4 }
  else m0

/-- The frame-type dispatch of `parse` on the working slice. -/
def bodyStage (fw : Bytes) (m1 : Mpdu) : Option Mpdu :=
  if m1.framectrl.ftype = 0 then mgmtStage fw m1
  else if m1.framectrl.ftype = 1 then some (ctrlStage fw m1)
  else if m1.framectrl.ftype = 2 then some (dataStage fw m1)
  else some { m1 with err := m1.err ++ [("framectrl.type", "invalid type RSRV")] }

/-- The encryption pass: run when and only when the protected-frame flag
is set. -/
def cryptMaybe (fw : Bytes) (m2 : Mpdu) : Mpdu :=
  if m2.framectrl.flags.pf then cryptStage fw m2 else m2

/-- The final `if hasFCS: m['present'].append('fcs')` of `parse`. -/
def addFcsTag (hasFCS : Bool) (m3 : Mpdu) : Mpdu :=
  if hasFCS then { m3 with present := m3.present ++ ["fcs"] } else m3

/-- Everything `parse` does after the mandatory header: frame-type branch,
encryption pass, final fcs tag. -/
def parseTail (fw : Bytes) (hasFCS : Bool) (m1 : Mpdu) : ParseOutcome :=
  match bodyStage fw m1 with
  | none => .div
  | some m2 => .ok (addFcsTag hasFCS (cryptMaybe fw m2))

/-- `parse(f, hasFCS)` of `mpdu.py`. -/
def parse (f : Bytes) (hasFCS : Bool) : ParseOutcome :=
  if f.length < 10 then
    if f.length = 0 then .empty else .perror
  else parseTail (if hasFCS then dropLastN 4 f else f) hasFCS (headerRec f hasFCS)

/-! ### concrete frames used by the evaluations below -/

/-- A minimal 10-byte ACK control frame (type CTRL, subtype ACK). -/
def ack10 : Bytes := [0xD4, 0, 0, 0, 0xFF, 0xFF, 0xFF, 0xFF, 0xFF, 0xFF]

/-- A 26-byte probe-request management frame whose single element header
declares `elen = 255` with no payload behind it. -/
def probeOverrun : Bytes := [0x40, 0, 0, 0] ++ List.replicate 20 0 ++ [0, 255]

/-- An 11-byte probe-request management frame: one stray byte follows the
mandatory header, so the element loop starts with a single remaining byte. -/
def probeStray : Bytes := [0x40, 0, 0, 0, 0xFF, 0xFF, 0xFF, 0xFF, 0xFF, 0xFF, 0]

/-- A 25-byte beacon management frame: the fixed parameters are truncated
and one byte remains for the element loop. -/
def beaconStray : Bytes := [0x80, 0, 0, 0] ++ List.replicate 21 0

/-- A 30-byte probe-request management frame carrying two SSID elements
(eid 0) with payloads `a` and `b`. -/
def probeTwoSsid : Bytes := [0x40, 0, 0, 0] ++ List.replicate 20 0 ++ [0, 1, 97, 0, 1, 98]

/-- A 27-byte action management frame with one byte of action elements. -/
def actionFrame : Bytes := [0xD0, 0, 0, 0] ++ List.replicate 20 0 ++ [5, 6, 7]

/-- A 14-byte protected ACK frame whose four post-header bytes pass the
TKIP seed test (`(b0 | 0x20) & 0x7f == b1`) with the ExtIV bit set. -/
def tkipShort : Bytes :=
  [0xD4, 0x40, 0, 0, 0xFF, 0xFF, 0xFF, 0xFF, 0xFF, 0xFF, 0, 0x20, 0, 0x20]

/-- An 18-byte protected ACK frame classified as CCMP whose CCMP header has
byte 0 equal to 1 and byte 7 equal to 9. -/
def ccmpFrame : Bytes :=
  [0xD4, 0x40, 0, 0, 0xFF, 0xFF, 0xFF, 0xFF, 0xFF, 0xFF, 1, 0, 0, 0x20, 0, 0, 0, 9]

/-- A 12-byte control-wrapper frame: the carried frame control fits but the
4-byte HT control does not. -/
def wrapShort : Bytes := [0x74, 0, 0, 0, 0xFF, 0xFF, 0xFF, 0xFF, 0xFF, 0xFF, 0, 0]

/-- A working slice and record for exercising `cryptStage` directly: the
four bytes at cursor 0 satisfy the TKIP conditions and eight bytes are
readable. -/
def cryptBuf8 : Bytes := [0, 32, 0, 32, 0, 0, 0, 0]

/-- A seven-byte working slice whose four bytes at cursor 0 have the ExtIV
bit set and fail the seed test: CCMP with exactly seven readable bytes,
the boundary at which the pn5 quirk still lets `_ccmp_` succeed. -/
def cryptBuf7 : Bytes := [1, 0, 0, 32, 0, 0, 0]

/-- A bare protected-frame record positioned at cursor 0. -/
def mPf0 : Mpdu :=
  { framectrl := { vers := 0, ftype := 2, subtype := 0,
                   flags := { td := false, fd := false, mf := false, r := false,
                              pm := false, md := false, pf := true, o := false } },
    duration := .vcs 0, addr1 := "", offset := 0, stripped := 0,
    present := ["framectrl", "duration", "addr1"], err := [] }

/-! ### supporting lemmas -/

/-- A single-bit `bitset` test is the corresponding `testBit`. -/
lemma bitset_two_pow (n v : Nat) : bitset (2 ^ n) v = v.testBit n := by
  unfold bitset
  rw [Nat.and_two_pow]
  cases h : v.testBit n
  · have hpos : 0 < 2 ^ n := Nat.two_pow_pos n
    simp
    omega
  · simp

/-- On a state whose cursor sits strictly inside the buffer with fewer than
two bytes remaining, one iteration of the Python loop body leaves the
cursor unchanged (the `BB` unpack raises before the cursor moves and the
handler only appends an error entry). -/
lemma ieStep_stuck (f : Bytes) (s : IeState) (h2 : f.length < s.offset + 2) :
    (ieStep f s).offset = s.offset := by
  unfold ieStep
  rw [if_neg (by omega)]

/-- Iterating the Python loop body from a stuck state never moves the
cursor: the source loop re-tests `offset < len(f)` against an unchanged
offset forever. -/
lemma ieStep_stuck_iterate (f : Bytes) (c : Nat) (h2 : f.length < c + 2) :
    ∀ (n : Nat) (s : IeState), s.offset = c → ((ieStep f)^[n] s).offset = c := by
  intro n
  induction n with
  | zero => intro s hs; simpa using hs
  | succ k ih =>
    intro s hs
    rw [Function.iterate_succ_apply]
    exact ih _ (by rw [ieStep_stuck f s (by omega)]; exact hs)

/-- A successful unpack means the format fits below the buffer end. -/
lemma upk_bound {fs : List FU} {f : Bytes} {off : Nat} {vs : List Nat}
    (h : upk fs f off = some vs) : off + fmtSize fs ≤ f.length := by
  unfold upk at h
  by_cases hc : off + fmtSize fs ≤ f.length
  · exact hc
  · simp [hc] at h

/-- A successful unpack returns the values read at the offset. -/
lemma upk_vals {fs : List FU} {f : Bytes} {off : Nat} {vs : List Nat}
    (h : upk fs f off = some vs) : vs = upkVals fs f off := by
  unfold upk at h
  by_cases hc : off + fmtSize fs ≤ f.length
  · simp [hc] at h; exact h.symm
  · simp [hc] at h

/-! ### C1, C2, C4, C9: evaluations at the failing inputs -/

/-- C1: the claim `offset + stripped ≤ len(buf)` fails on the code: on the
26-byte probe request `probeOverrun`, whose element header declares
`elen = 255`, `parse` returns a record with `offset = 281` and
`stripped = 0`, so `offset + stripped = 281 > 26` (and `err` is empty). -/
theorem parse_offset_can_overrun_buffer :
    (okRec (parse probeOverrun false)).map (fun m => (m.offset, m.stripped, m.err)) =
      some (281, 0, []) ∧
    probeOverrun.length = 26 ∧ ¬(281 + 0 ≤ 26) :=
  ⟨rfl, rfl, by decide⟩

/-- C2: the element loop of `mpdu.py` does not terminate on every buffer:
on the 11-byte management frame `probeStray` the loop is entered with one
byte remaining, the `BB` unpack fails without moving the cursor, and the
loop repeats the identical iteration forever — `parse` is modelled as
diverging, and every iterate of the literal loop body keeps the cursor at
10, so the `offset < len(f)` guard never becomes false. -/
theorem mgmt_ie_loop_diverges_on_stray_byte :
    parse probeStray false = ParseOutcome.div ∧
    ∀ (n : Nat), ((ieStep probeStray)^[n] ⟨10, [], []⟩).offset = 10 :=
  ⟨rfl, fun n => ieStep_stuck_iterate probeStray 10 (by decide) n ⟨10, [], []⟩ rfl⟩

/-- C4: the claim that `parse` always returns a record for buffers of ten
or more bytes fails on the code: on the 25-byte truncated beacon
`beaconStray` the element loop diverges and `parse` never returns. -/
theorem parse_fails_to_return_on_stray_byte :
    parse beaconStray false = ParseOutcome.div ∧ beaconStray.length = 25 :=
  ⟨rfl, rfl⟩

/-- C9: the CCMP decoder sets `pn5` from the byte at `cursor + 0` (the
constant `_CCMP_PN0_BYTE_`), not from the byte at `cursor + 7`: on
`ccmpFrame` the cursor is 10, byte 10 is 1 and byte 17 is 9, yet the
decoded `pn5` is 1. -/
theorem ccmp_pn5_reads_byte_zero :
    (okRec (parse ccmpFrame false)).map (fun m => m.l3crypt.bind L3Crypt.pn5?) =
      some (some 1) ∧
    ccmpFrame.getD 10 0 = 1 ∧ ccmpFrame.getD 17 0 = 9 ∧ (1 : Nat) ≠ 9 :=
  ⟨rfl, rfl, rfl, by decide⟩

/-! ### C5: empty and short buffers -/

/-- C5: an empty buffer yields the `{'offset': 0}` sentinel without an
exception, and a non-empty buffer too short for the ten mandatory header
bytes makes `parse` raise (`perror`), returning no partial-header
record. -/
theorem parse_empty_and_short_buffer (f : Bytes) (b : Bool) :
    (f.length = 0 → parse f b = .empty) ∧
    (0 < f.length → f.length < 10 → parse f b = .perror) := by
  constructor
  · intro h
    unfold parse
    rw [if_pos (by omega), if_pos h]
  · intro h1 h2
    unfold parse
    rw [if_pos h2, if_neg (by omega)]

/-- Witness for C5 at the empty buffer and a 3-byte buffer. -/
theorem parse_empty_and_short_buffer_witness :
    parse [] true = .empty ∧ parse [1, 2, 3] false = .perror :=
  ⟨(parse_empty_and_short_buffer [] true).1 rfl,
   (parse_empty_and_short_buffer [1, 2, 3] false).2 (by decide) (by decide)⟩

/-! ### C10: the duration rule -/

/-- C10: for every 16-bit duration value the decoded variant follows the
bit-15/bit-14 rule: `VCS` with the low 15 bits when bit 15 is clear; `CFP`
exactly at 32768 when bit 15 is set and bit 14 clear, `Reserved` otherwise;
`AID` with the low 13 bits when both bits are set and that value is at most
2007; `Reserved` otherwise. -/
theorem duration_decode_rule (v : Nat) (_hv : v < 65536) :
    duration v =
      (if v.testBit 15 = false then Duration.vcs (v &&& 32767)
       else if v.testBit 14 = false then
         (if v = 32768 then Duration.cfp else Duration.rsrv)
       else if v &&& 8191 ≤ 2007 then Duration.aid (v &&& 8191)
       else Duration.rsrv) := by
  have h15 : bitset 32768 v = v.testBit 15 := by
    have h := bitset_two_pow 15 v; norm_num at h; exact h
  have h14 : bitset 16384 v = v.testBit 14 := by
    have h := bitset_two_pow 14 v; norm_num at h; exact h
  have hm15 : (1 <<< 15) - 1 = 32767 := by decide
  have hm13 : (1 <<< 13) - 1 = 8191 := by decide
  unfold duration leastx
  rw [h15, h14, hm15, hm13]

/-- Witness for C10 at `v = 42` (bit 15 clear, so `VCS{dur = 42}`). -/
theorem duration_decode_rule_witness :
    duration 42 =
      (if (42 : Nat).testBit 15 = false then Duration.vcs (42 &&& 32767)
       else if (42 : Nat).testBit 14 = false then
         (if (42 : Nat) = 32768 then Duration.cfp else Duration.rsrv)
       else if (42 : Nat) &&& 8191 ≤ 2007 then Duration.aid (42 &&& 8191)
       else Duration.rsrv) :=
  duration_decode_rule 42 (by decide)

/-! ### C8: the encryption discriminator -/

/-- `readLE` of a single byte is that byte. -/
lemma readLE_one (f : Bytes) (off : Nat) : readLE f off 1 = f.getD off 0 := by
  simp [readLE]

/-- An unpack whose format fits succeeds with the values read. -/
lemma upk_succeeds {fs : List FU} {f : Bytes} {off : Nat}
    (h : off + fmtSize fs ≤ f.length) : upk fs f off = some (upkVals fs f off) := by
  unfold upk
  rw [if_pos h]

/-- C8 counterexample: the claim promises a TKIP `l3-crypt` record whenever
the four post-header bytes are readable and pass the seed test, but on the
14-byte protected frame `tkipShort` (exactly four post-header bytes) the
TKIP extractor indexes bytes up to `cursor + 7`, raises, and the record
only gains an `l3-crypt.tkip` error entry — no `l3-crypt` key. -/
theorem tkip_short_no_crypt_record :
    (okRec (parse tkipShort false)).map
        (fun m => (m.l3crypt.isSome, m.err, m.offset, m.stripped)) =
      some (false, [("l3-crypt.tkip", "parsing")], 10, 0) ∧
    tkipShort.getD 13 0 &&& 32 ≠ 0 ∧
    (tkipShort.getD 10 0 ||| 32) &&& 127 = tkipShort.getD 11 0 ∧
    tkipShort.length = 14 :=
  ⟨rfl, by decide, by decide, rfl⟩

/-- C8 (amended): with the protected-frame flag set and the four bytes at
the cursor readable as `b0..b3`: if `b3 & 0x20 = 0` the frame is decoded
as WEP with the cursor advanced by 4 and `stripped` increased by 4.
Otherwise the seed test `(b0 | 0x20) & 0x7f = b1` selects TKIP against
CCMP, and each extractor has its own readability threshold: TKIP indexes
bytes up to `cursor + 7`, so it needs eight readable bytes at the cursor —
given them it yields `mic = working[-12:-4]`, `icv = working[-4:]`, cursor
advanced by 8 and `stripped` increased by 12, and with fewer it records an
`l3-crypt.tkip` error and leaves the key, cursor and `stripped` untouched;
CCMP reads `pn5` from the byte at `cursor + 0` rather than `cursor + 7`,
so its largest index is `cursor + 6` and seven readable bytes suffice —
given them it yields `mic = working[-8:]`, cursor advanced by 8 and
`stripped` increased by 8, and with fewer it records an `l3-crypt.ccmp`
error and leaves the key, cursor and `stripped` untouched. -/
theorem crypt_discriminator_rule (f : Bytes) (m : Mpdu) (b0 b1 b2 b3 : Nat)
    (_hpf : m.framectrl.flags.pf = true)
    (hb : upk [.u8, .u8, .u8, .u8] f m.offset = some [b0, b1, b2, b3]) :
    (b3 &&& 32 = 0 →
       (cryptStage f m).l3crypt.map L3Crypt.ctype = some "wep" ∧
       (cryptStage f m).offset = m.offset + 4 ∧
       (cryptStage f m).stripped = m.stripped + 4) ∧
    (b3 &&& 32 ≠ 0 → (b0 ||| 32) &&& 127 = b1 →
       (m.offset + 8 ≤ f.length →
          (cryptStage f m).l3crypt.map L3Crypt.ctype = some "tkip" ∧
          (cryptStage f m).l3crypt.bind L3Crypt.mic? = some (sliceNeg 12 4 f) ∧
          (cryptStage f m).l3crypt.bind L3Crypt.icv? = some (takeLastN 4 f) ∧
          (cryptStage f m).offset = m.offset + 8 ∧
          (cryptStage f m).stripped = m.stripped + 12) ∧
       (¬ m.offset + 8 ≤ f.length →
          (cryptStage f m).l3crypt = m.l3crypt ∧
          (cryptStage f m).err = m.err ++ [("l3-crypt.tkip", "parsing")] ∧
          (cryptStage f m).offset = m.offset ∧
          (cryptStage f m).stripped = m.stripped)) ∧
    (b3 &&& 32 ≠ 0 → (b0 ||| 32) &&& 127 ≠ b1 →
       (m.offset + 7 ≤ f.length →
          (cryptStage f m).l3crypt.map L3Crypt.ctype = some "ccmp" ∧
          (cryptStage f m).l3crypt.bind L3Crypt.mic? = some (takeLastN 8 f) ∧
          (cryptStage f m).offset = m.offset + 8 ∧
          (cryptStage f m).stripped = m.stripped + 8) ∧
       (¬ m.offset + 7 ≤ f.length →
          (cryptStage f m).l3crypt = m.l3crypt ∧
          (cryptStage f m).err = m.err ++ [("l3-crypt.ccmp", "parsing")] ∧
          (cryptStage f m).offset = m.offset ∧
          (cryptStage f m).stripped = m.stripped)) := by
  have hlen : m.offset + 4 ≤ f.length := by
    have h := upk_bound hb
    simpa [fmtSize, fuSize] using h
  have hkey : cryptStage f m =
      cryptTag (if b3 &&& 32 = 0 then wepStage f m
                else if (b0 ||| 32) &&& 127 = b1 then tkipStage f m
                else ccmpStage f m) := by
    unfold cryptStage cryptPick
    rw [hb]
    simp only [List.getD_cons_succ, List.getD_cons_zero]
  refine ⟨?_, ?_, ?_⟩
  · intro hwep
    have hk : upk [FU.u8] f (m.offset + 3) = some [f.getD (m.offset + 3) 0] := by
      have hfit : m.offset + 3 + fmtSize [FU.u8] ≤ f.length := by
        simp only [fmtSize, fuSize, List.map, List.sum_cons, List.sum_nil]
        omega
      rw [upk_succeeds hfit]
      simp [upkVals, fuSize, readLE]
    have hws : wepStage f m =
        { m with l3crypt := some (.wep (pyTake f m.offset 4)
                   (mostx 6 (f.getD (m.offset + 3) 0)) (takeLastN 4 f)),
                 offset := m.offset + 4, stripped := m.stripped + 4 } := by
      unfold wepStage
      rw [hk]
      simp
    rw [hkey]
    simp only [hwep, if_pos rfl, hws]
    simp [cryptTag, L3Crypt.ctype]
  · intro hext hseed
    refine ⟨?_, ?_⟩
    · intro h8
      have hts : tkipStage f m =
          { m with l3crypt := some (.tkip (f.getD m.offset 0) (f.getD (m.offset + 1) 0)
                     (f.getD (m.offset + 2) 0)
                     ⟨leastx 5 (f.getD (m.offset + 3) 0), midx 5 1 (f.getD (m.offset + 3) 0),
                      mostx 6 (f.getD (m.offset + 3) 0)⟩
                     (f.getD (m.offset + 4) 0) (f.getD (m.offset + 5) 0)
                     (f.getD (m.offset + 6) 0) (f.getD (m.offset + 7) 0)
                     (sliceNeg 12 4 f) (takeLastN 4 f)),
                   offset := m.offset + 8, stripped := m.stripped + 12 } := by
        unfold tkipStage
        rw [if_pos h8]
      rw [hkey]
      simp only [if_neg hext, if_pos hseed, hts]
      simp [cryptTag, L3Crypt.ctype, L3Crypt.mic?, L3Crypt.icv?]
    · intro h8
      have hts : tkipStage f m =
          { m with err := m.err ++ [("l3-crypt.tkip", "parsing")] } := by
        unfold tkipStage
        rw [if_neg h8]
      rw [hkey]
      simp only [if_neg hext, if_pos hseed, hts]
      unfold cryptTag
      split_ifs <;> exact ⟨rfl, rfl, rfl, rfl⟩
  · intro hext hseed
    refine ⟨?_, ?_⟩
    · intro h7
      have hcs : ccmpStage f m =
          { m with l3crypt := some (.ccmp (f.getD m.offset 0) (f.getD (m.offset + 1) 0)
                     (f.getD (m.offset + 2) 0)
                     ⟨leastx 5 (f.getD (m.offset + 3) 0), midx 5 1 (f.getD (m.offset + 3) 0),
                      mostx 6 (f.getD (m.offset + 3) 0)⟩
                     (f.getD (m.offset + 4) 0) (f.getD (m.offset + 5) 0)
                     (f.getD (m.offset + 6) 0) (f.getD (m.offset + 0) 0)
                     (takeLastN 8 f)),
                   offset := m.offset + 8, stripped := m.stripped + 8 } := by
        unfold ccmpStage
        rw [if_pos h7]
      rw [hkey]
      simp only [if_neg hext, if_neg hseed, hcs]
      simp [cryptTag, L3Crypt.ctype, L3Crypt.mic?]
    · intro h7
      have hcs : ccmpStage f m =
          { m with err := m.err ++ [("l3-crypt.ccmp", "parsing")] } := by
        unfold ccmpStage
        rw [if_neg h7]
      rw [hkey]
      simp only [if_neg hext, if_neg hseed, hcs]
      unfold cryptTag
      split_ifs <;> exact ⟨rfl, rfl, rfl, rfl⟩

/-- Witness for C8 on the bare protected record `mPf0` and two working
slices: on `cryptBuf8` the bytes `0, 32, 0, 32` pass the ExtIV and seed
tests, so the frame is TKIP with the cursor moved to 8 and 12 bytes
stripped; on the seven-byte `cryptBuf7` the seed test fails, and CCMP
succeeds at its exact `cursor + 7` readability boundary. -/
theorem crypt_discriminator_rule_witness :
    ((cryptStage cryptBuf8 mPf0).l3crypt.map L3Crypt.ctype = some "tkip" ∧
     (cryptStage cryptBuf8 mPf0).l3crypt.bind L3Crypt.mic? =
       some (sliceNeg 12 4 cryptBuf8) ∧
     (cryptStage cryptBuf8 mPf0).l3crypt.bind L3Crypt.icv? =
       some (takeLastN 4 cryptBuf8) ∧
     (cryptStage cryptBuf8 mPf0).offset = mPf0.offset + 8 ∧
     (cryptStage cryptBuf8 mPf0).stripped = mPf0.stripped + 12) ∧
    ((cryptStage cryptBuf7 mPf0).l3crypt.map L3Crypt.ctype = some "ccmp" ∧
     (cryptStage cryptBuf7 mPf0).l3crypt.bind L3Crypt.mic? =
       some (takeLastN 8 cryptBuf7) ∧
     (cryptStage cryptBuf7 mPf0).offset = mPf0.offset + 8 ∧
     (cryptStage cryptBuf7 mPf0).stripped = mPf0.stripped + 8) :=
  ⟨((crypt_discriminator_rule cryptBuf8 mPf0 0 32 0 32 rfl rfl).2.1
      (by decide) (by decide)).1 (by decide),
   ((crypt_discriminator_rule cryptBuf7 mPf0 1 0 0 32 rfl rfl).2.2
      (by decide) (by decide)).1 (by decide)⟩

/-! ### C6: element collection shapes -/

/-- C6 counterexample: on `probeTwoSsid`, which carries two SSID elements,
the record returned by the public parser stores two separate entries both
carrying eid 0 — the collection is not keyed by eid, so the duplicate key
list `[0, 0]` contradicts aggregation into one list under the eid key. -/
theorem same_eid_elements_not_aggregated :
    (okRec (parse probeTwoSsid false)).bind (fun m => m.infoElements) =
      some [(0, PyVal.uni [97]), (0, PyVal.uni [98])] ∧
    List.map Prod.fst [((0 : Nat), PyVal.uni [97]), (0, PyVal.uni [98])] = [0, 0] ∧
    ¬ ([0, 0] : List Nat).Nodup :=
  ⟨rfl, rfl, by decide⟩

/-- `combineOpt` with nothing to append is the identity. -/
lemma combineOpt_nil (x : Option (List PyVal)) : combineOpt x [] = x := by
  cases x <;> simp [combineOpt]

/-- Appending one value and then a list. -/
lemma combineOpt_cons (x : Option (List PyVal)) (a : PyVal) (l : List PyVal) :
    combineOpt x (a :: l) = combineOpt (combineOpt x [a]) l := by
  cases x <;> cases l <;> simp [combineOpt]

/-- `filterVals` over a cons cell. -/
lemma filterVals_cons (e a : Nat) (b : PyVal) (l : List (Nat × PyVal)) :
    filterVals e ((a, b) :: l) =
      if a = e then b :: filterVals e l else filterVals e l := by
  by_cases h : a = e <;> simp [filterVals, List.filterMap_cons, h]

/-- `alookup` over a cons cell. -/
lemma alookup_cons (e a : Nat) (b : α) (t : List (Nat × α)) :
    alookup e ((a, b) :: t) = if a = e then some b else alookup e t := rfl

/-- Lookup after the append-to-existing-key pass of `dictAdd`. -/
lemma alookup_map_add (d : List (Nat × List PyVal)) (k : Nat) (v : PyVal) (e : Nat) :
    alookup e (d.map (fun p => if p.1 = k then (p.1, p.2 ++ [v]) else p)) =
      if e = k then (alookup e d).map (· ++ [v]) else alookup e d := by
  induction d with
  | nil => by_cases h : e = k <;> simp [alookup, h]
  | cons p t ih =>
    obtain ⟨a, b⟩ := p
    have hhead : (if (a, b).1 = k then ((a, b).1, (a, b).2 ++ [v]) else (a, b))
        = if a = k then (a, b ++ [v]) else (a, b) := by
      by_cases h : a = k <;> simp [h]
    rw [List.map_cons, hhead]
    by_cases hak : a = k
    · rw [if_pos hak]
      by_cases hea : e = a
      · rw [alookup_cons, if_pos hea.symm, if_pos (hea.trans hak),
            alookup_cons, if_pos hea.symm]
        rfl
      · rw [alookup_cons, if_neg (fun h => hea h.symm), ih]
        by_cases hek : e = k
        · rw [if_pos hek, if_pos hek, alookup_cons,
              if_neg (fun h => hea h.symm)]
        · rw [if_neg hek, if_neg hek, alookup_cons,
              if_neg (fun h => hea h.symm)]
    · rw [if_neg hak]
      by_cases hea : a = e
      · have hek : ¬ e = k := fun h => hak ((hea.trans h))
        rw [alookup_cons, if_pos hea, if_neg hek, alookup_cons, if_pos hea]
      · rw [alookup_cons, if_neg hea, ih]
        by_cases hek : e = k
        · rw [if_pos hek, if_pos hek, alookup_cons, if_neg hea]
        · rw [if_neg hek, if_neg hek, alookup_cons, if_neg hea]

/-- Lookup after appending a fresh entry. -/
lemma alookup_append_single (d : List (Nat × List PyVal)) (k : Nat)
    (v : List PyVal) (e : Nat) :
    alookup e (d ++ [(k, v)]) =
      match alookup e d with
      | some xs => some xs
      | none => if k = e then some v else none := by
  induction d with
  | nil => simp [alookup]
  | cons p t ih =>
    obtain ⟨a, b⟩ := p
    rw [List.cons_append, alookup_cons, alookup_cons]
    by_cases hea : a = e
    · rw [if_pos hea, if_pos hea]
    · rw [if_neg hea, if_neg hea, ih]

/-- The aggregation step seen through lookup: adding a value under key `k`
appends it to the looked-up list of `k` (a fresh key yields the singleton)
and leaves every other key unchanged. -/
lemma alookup_dictAdd (d : List (Nat × List PyVal)) (k : Nat) (v : PyVal) (e : Nat) :
    alookup e (dictAdd d k v) =
      if e = k then combineOpt (alookup e d) [v] else alookup e d := by
  unfold dictAdd
  by_cases hmem : (alookup k d).isSome
  · rw [if_pos hmem, alookup_map_add]
    by_cases he : e = k
    · subst he
      obtain ⟨xs, hxs⟩ := Option.isSome_iff_exists.mp hmem
      rw [if_pos rfl, if_pos rfl, hxs]
      simp [combineOpt]
    · rw [if_neg he, if_neg he]
  · rw [if_neg hmem, alookup_append_single]
    by_cases he : e = k
    · subst he
      have hnone : alookup e d = none := Option.not_isSome_iff_eq_none.mp hmem
      rw [if_pos rfl, hnone]
      simp [combineOpt]
    · rw [if_neg he]
      cases hd : alookup e d with
      | some xs => simp
      | none => simp [if_neg (fun h : k = e => he h.symm)]

/-- Engine-level version of the flat-loop characterization: a completed
run appends exactly the walk of the buffer from its cursor. -/
lemma ieLoopGo_ies :
    ∀ (fuel : Nat) (f : Bytes) (s s1 : IeState),
      ieLoopGo fuel f s = .done s1 → s1.ies = s.ies ++ ieWalkGo fuel f s.offset := by
  intro fuel
  induction fuel with
  | zero =>
    intro f s s1 h
    simp only [ieLoopGo] at h
    injection h with h
    simp [ieWalkGo, ← h]
  | succ k ih =>
    intro f s s1 h
    unfold ieLoopGo at h
    unfold ieWalkGo
    by_cases h1 : f.length ≤ s.offset
    · rw [if_pos h1] at h
      injection h with h
      rw [if_pos h1]
      simp [← h]
    · rw [if_neg h1] at h
      by_cases h2 : s.offset + 2 ≤ f.length
      · rw [if_pos h2] at h
        rw [if_neg h1, if_pos h2]
        have hadv := ih f (ieAdvance f s) s1 h
        cases hp : parseIe (f.getD s.offset 0)
            (pyTake f (s.offset + 2) (f.getD (s.offset + 1) 0)) with
        | ok v =>
          simp only [ieAdvance, hp] at hadv
          simp [hadv, hp]
        | error e =>
          cases e with
          | unpack eid =>
            simp only [ieAdvance, hp] at hadv
            simp [hadv, hp]
          | generic =>
            simp only [ieAdvance, hp] at hadv
            simp [hadv, hp]
      · rw [if_neg h2] at h
        cases h

/-- Engine-level version of the private-loop aggregation. -/
lemma privIeLoopGo_lookup :
    ∀ (fuel : Nat) (dec : Nat → Bytes → Except IeErr PyVal) (f : Bytes)
      (s : PrivIeState) (e : Nat),
      alookup e (privIeLoopGo dec f fuel s).ies =
        combineOpt (alookup e s.ies) (filterVals e (privWalkGo dec f fuel s.offset)) := by
  intro fuel
  induction fuel with
  | zero =>
    intro dec f s e
    simp [privIeLoopGo, privWalkGo, filterVals, combineOpt_nil]
  | succ k ih =>
    intro dec f s e
    unfold privIeLoopGo
    unfold privWalkGo
    by_cases h1 : f.length ≤ s.offset
    · rw [if_pos h1, if_pos h1]
      simp [filterVals, combineOpt_nil]
    · rw [if_neg h1, if_neg h1]
      by_cases h2 : s.offset + 2 ≤ f.length
      · rw [if_pos h2, if_pos h2]
        cases hp : dec (f.getD s.offset 0)
            (pyTake f (s.offset + 2) (f.getD (s.offset + 1) 0)) with
        | ok v =>
          simp only [hp]
          rw [ih, filterVals_cons, alookup_dictAdd]
          by_cases he : f.getD s.offset 0 = e
          · rw [he, if_pos rfl, if_pos rfl]
            conv_rhs => rw [combineOpt_cons]
          · rw [if_neg he, if_neg (fun hc => he (hc.symm))]
        | error er =>
          simp only [hp]
          rw [ih]
      · rw [if_neg h2, if_neg h2]
        simp [filterVals, combineOpt_nil]

/-- C6 (amended): the public parser (`mpdu.py`) does not aggregate: every
element that decodes appends its own `(eid, value)` tuple to the ordered
`info-elements` list, duplicates included, in buffer order; the keyed
aggregation described by the claim — a list under the eid key, a first
occurrence creating a singleton — is the behaviour of the element loop of
the private variant `_mpdu.py` only, here stated through lookup: after its
loop, the list under any eid is the prior value of that key extended by
the decoded values of exactly the elements carrying that eid, in order. -/
theorem ie_collection_shapes :
    (∀ (f : Bytes) (s s1 : IeState), ieLoopRun f s = .done s1 →
        s1.ies = s.ies ++ ieWalk f s.offset) ∧
    (∀ (dec : Nat → Bytes → Except IeErr PyVal) (f : Bytes) (s : PrivIeState)
        (e : Nat),
        alookup e (privIeLoop dec f s).ies =
          combineOpt (alookup e s.ies) (filterVals e (privWalk dec f s.offset))) :=
  ⟨fun f s s1 h => ieLoopGo_ies (f.length - s.offset) f s s1 h,
   fun dec f s e => privIeLoopGo_lookup (f.length - s.offset) dec f s e⟩

/-- The flat-loop state reached from the two-SSID element stream. -/
def twoSsidRes : IeState :=
  match ieLoopRun [0, 1, 97, 0, 1, 98] ⟨0, [], []⟩ with
  | .done s => s
  | .div s => s

/-- Witness for C6 on the element stream of two SSID elements. -/
theorem ie_collection_shapes_witness :
    twoSsidRes.ies = ([] : List (Nat × PyVal)) ++ ieWalk [0, 1, 97, 0, 1, 98] 0 :=
  ie_collection_shapes.1 [0, 1, 97, 0, 1, 98] ⟨0, [], []⟩ twoSsidRes rfl

/-! ### C3: the fcs tag -/

/-- C3 counterexample: with `has_fcs = true` a ten-byte frame — shorter
than the claimed 14-byte threshold — already gets the fcs key and tag: the
fcs is read from the last four bytes even though they overlap the header. -/
theorem fcs_present_with_short_buffer :
    (okRec (parse ack10 true)).map (fun m => (m.present.contains "fcs", m.fcs)) =
      some (true, some 4294967295) ∧
    ack10.length = 10 ∧ ¬(14 ≤ ack10.length) :=
  ⟨rfl, rfl, by decide⟩

/-- The tags a frame-type or encryption stage may append to `present`
(everything except the header tags and the final fcs tag). -/
def bodyTags : List String :=
  ["addr2", "addr3", "seqctrl", "fixed-params", "action-els", "info-elements",
   "barctrl", "bactrl", "carriedframectrl", "htc", "carriedframe", "addr4",
   "qos", "l3-crypt"]

/-- What one pass of a body stage does to the bookkeeping of a record:
`present` is extended by body tags only, the fcs key is untouched, and
`stripped` never decreases. -/
def presDelta (m m2 : Mpdu) : Prop :=
  (∃ l, m2.present = m.present ++ l ∧ ∀ t ∈ l, t ∈ bodyTags) ∧
  m2.fcs = m.fcs ∧ m.stripped ≤ m2.stripped

/-- `presDelta` is reflexive. -/
lemma presDelta_refl (m : Mpdu) : presDelta m m :=
  ⟨⟨[], by simp, by simp⟩, rfl, Nat.le_refl _⟩

/-- Chain a proven delta with one more update step. -/
lemma presDelta_step (m m1 m2 : Mpdu) (h : presDelta m m1) (l : List String)
    (hp : m2.present = m1.present ++ l) (hl : ∀ t ∈ l, t ∈ bodyTags)
    (hf : m2.fcs = m1.fcs) (hs : m1.stripped ≤ m2.stripped) : presDelta m m2 := by
  obtain ⟨⟨l0, hp0, hl0⟩, hf0, hs0⟩ := h
  refine ⟨⟨l0 ++ l, ?_, ?_⟩, hf.trans hf0, hs0.trans hs⟩
  · rw [hp, hp0, List.append_assoc]
  · intro t ht
    rcases List.mem_append.mp ht with h1 | h1
    · exact hl0 t h1
    · exact hl t h1

/-- Chain a proven delta with a step that leaves the three components
unchanged. -/
lemma presDelta_same (m m1 m2 : Mpdu) (h : presDelta m m1)
    (hp : m2.present = m1.present) (hf : m2.fcs = m1.fcs)
    (hs : m1.stripped ≤ m2.stripped) : presDelta m m2 :=
  presDelta_step m m1 m2 h [] (by simpa using hp) (by simp) hf hs

/-- The shared addr2 read only appends the addr2 tag. -/
lemma ctrlAddr2_delta (f : Bytes) (m : Mpdu) (loc : String) :
    presDelta m (ctrlAddr2 f m loc) := by
  unfold ctrlAddr2
  cases hu : upk fmtAddr f m.offset with
  | some vs =>
    exact presDelta_step m m _ (presDelta_refl m) ["addr2"] rfl
      (by simp [bodyTags]) rfl (Nat.le_refl _)
  | none => exact presDelta_same m m _ (presDelta_refl m) rfl rfl (Nat.le_refl _)

/-- The fixed-parameter error arm changes no bookkeeping. -/
lemma mgmtErr_delta (m m1 : Mpdu) (h : presDelta m m1) : presDelta m (mgmtErr m1) :=
  presDelta_same m m1 _ h rfl rfl (Nat.le_refl _)

/-- `setFixed` as one delta step. -/
lemma setFixed_delta (m m1 : Mpdu) (h : presDelta m m1) (v : PyVal) (k : Nat) :
    presDelta m (setFixed m1 v k) :=
  presDelta_step m m1 _ h ["fixed-params"] rfl (by simp [bodyTags]) rfl (Nat.le_refl _)

/-- The fixed-parameter block appends at most the fixed-params and
action-els tags. -/
lemma mgmtFixed_delta (f : Bytes) (m : Mpdu) : presDelta m (mgmtFixed f m) := by
  unfold mgmtFixed
  split_ifs
  · cases hu : upk [FU.u16, FU.u16] f m.offset with
    | some vs => exact setFixed_delta m m (presDelta_refl m) _ _
    | none => exact mgmtErr_delta m m (presDelta_refl m)
  · cases hu : upk [FU.u16, FU.u16, FU.u16] f m.offset with
    | some vs => exact setFixed_delta m m (presDelta_refl m) _ _
    | none => exact mgmtErr_delta m m (presDelta_refl m)
  · cases hu : upk ([FU.u16, FU.u16] ++ fmtAddr) f m.offset with
    | some vs => exact setFixed_delta m m (presDelta_refl m) _ _
    | none => exact mgmtErr_delta m m (presDelta_refl m)
  · cases hu : upk [FU.u64, FU.u16] f m.offset with
    | some vs => exact setFixed_delta m m (presDelta_refl m) _ _
    | none => exact mgmtErr_delta m m (presDelta_refl m)
  · cases hu : upk [FU.u64, FU.u16, FU.u16] f m.offset with
    | some vs => exact setFixed_delta m m (presDelta_refl m) _ _
    | none => exact mgmtErr_delta m m (presDelta_refl m)
  · cases hu : upk [FU.u16] f m.offset with
    | some vs => exact setFixed_delta m m (presDelta_refl m) _ _
    | none => exact mgmtErr_delta m m (presDelta_refl m)
  · cases hu : upk [FU.u16, FU.u16, FU.u16] f m.offset with
    | some vs => exact setFixed_delta m m (presDelta_refl m) _ _
    | none => exact mgmtErr_delta m m (presDelta_refl m)
  · cases hu : upk [FU.u8, FU.u8] f m.offset with
    | some vs =>
      dsimp only
      by_cases hact : (setFixed m (.dict [("category", .int (vs.getD 0 0)),
                        ("action", .int (vs.getD 1 0))]) 2).offset < f.length
      · rw [if_pos hact]
        exact presDelta_step m _ _ (setFixed_delta m m (presDelta_refl m) _ _)
          ["action-els"] rfl (by simp [bodyTags]) rfl (Nat.le_refl _)
      · rw [if_neg hact]
        exact setFixed_delta m m (presDelta_refl m) _ _
    | none => exact mgmtErr_delta m m (presDelta_refl m)
  · exact presDelta_refl m


/-- `presDelta` is transitive. -/
lemma presDelta_trans {m1 m2 m3 : Mpdu} (h1 : presDelta m1 m2)
    (h2 : presDelta m2 m3) : presDelta m1 m3 := by
  obtain ⟨⟨l, hp, hl⟩, hf, hs⟩ := h2
  exact presDelta_step m1 m2 m3 h1 l hp hl hf hs

/-- The mgmt addr2/addr3/seqctrl read. -/
lemma mgmtAddrs_delta (f : Bytes) (m : Mpdu) : presDelta m (mgmtAddrs f m) := by
  unfold mgmtAddrs
  cases hu : upk fmtAddr2Addr3Seq f m.offset with
  | some vs =>
    exact presDelta_step m m _ (presDelta_refl m) ["addr2", "addr3", "seqctrl"] rfl
      (by simp [bodyTags]) rfl (Nat.le_refl _)
  | none => exact presDelta_same m m _ (presDelta_refl m) rfl rfl (Nat.le_refl _)

/-- The mgmt element loop, when it returns. -/
lemma mgmtIes_some {f : Bytes} {m2 m3 : Mpdu} (h : mgmtIes f m2 = some m3) :
    presDelta m2 m3 := by
  unfold mgmtIes at h
  by_cases hc : m2.offset < f.length
  · rw [if_pos hc] at h
    cases hr : ieLoopRun f ⟨m2.offset, [], []⟩ with
    | done s =>
      rw [hr] at h
      injection h with h
      exact presDelta_step m2 m2 _ (presDelta_refl m2) ["info-elements"]
        (by rw [← h]) (by simp [bodyTags]) (by rw [← h]) (by rw [← h])
    | div s => rw [hr] at h; cases h
  · rw [if_neg hc] at h
    injection h with h
    rw [← h]
    exact presDelta_refl m2

/-- The management stage, when the element loop returns. -/
lemma mgmtStage_some {f : Bytes} {m m3 : Mpdu} (h : mgmtStage f m = some m3) :
    presDelta m m3 := by
  unfold mgmtStage at h
  exact presDelta_trans (presDelta_trans (mgmtAddrs_delta f m)
    (mgmtFixed_delta f (mgmtAddrs f m))) (mgmtIes_some h)

/-- The bar-control read. -/
lemma barCtrlRead_delta (f : Bytes) (m : Mpdu) : presDelta m (barCtrlRead f m) := by
  unfold barCtrlRead
  cases hu : upk [FU.u16] f m.offset with
  | some vs =>
    exact presDelta_step m m _ (presDelta_refl m) ["barctrl"] rfl
      (by simp [bodyTags]) rfl (Nat.le_refl _)
  | none => exact presDelta_same m m _ (presDelta_refl m) rfl rfl (Nat.le_refl _)

/-- The bar-info read changes no bookkeeping component. -/
lemma barInfoRead_delta (f : Bytes) (m : Mpdu) : presDelta m (barInfoRead f m) := by
  unfold barInfoRead
  cases hbc : m.barctrl with
  | none => exact presDelta_same m m _ (presDelta_refl m) rfl rfl (Nat.le_refl _)
  | some bc =>
    dsimp only
    by_cases hmt : bc.multiTid = false
    · rw [if_pos hmt]
      cases hu : upk [FU.u16] f m.offset with
      | some vs => exact presDelta_same m m _ (presDelta_refl m) rfl rfl (Nat.le_refl _)
      | none => exact presDelta_same m m _ (presDelta_refl m) rfl rfl (Nat.le_refl _)
    · rw [if_neg hmt]
      by_cases hcb : bc.compressedBm = false
      · rw [if_pos hcb]
        exact presDelta_same m m _ (presDelta_refl m) rfl rfl (Nat.le_refl _)
      · rw [if_neg hcb]
        exact presDelta_same m m _ (presDelta_refl m) rfl rfl (Nat.le_refl _)

/-- The BlockAckReq arm. -/
lemma barStage_delta (f : Bytes) (m : Mpdu) : presDelta m (barStage f m) := by
  unfold barStage
  exact presDelta_trans (presDelta_trans
    (ctrlAddr2_delta f m "ctrl.ctrl-block-ack-req.addr2")
    (barCtrlRead_delta f _)) (barInfoRead_delta f _)

/-- The ba-control read. -/
lemma baCtrlRead_delta (f : Bytes) (m : Mpdu) : presDelta m (baCtrlRead f m) := by
  unfold baCtrlRead
  cases hu : upk [FU.u16] f m.offset with
  | some vs =>
    exact presDelta_step m m _ (presDelta_refl m) ["bactrl"] rfl
      (by simp [bodyTags]) rfl (Nat.le_refl _)
  | none => exact presDelta_same m m _ (presDelta_refl m) rfl rfl (Nat.le_refl _)

/-- The ba-info read changes no bookkeeping component. -/
lemma baInfoRead_delta (f : Bytes) (m : Mpdu) : presDelta m (baInfoRead f m) := by
  unfold baInfoRead
  cases hbc : m.bactrl with
  | none => exact presDelta_same m m _ (presDelta_refl m) rfl rfl (Nat.le_refl _)
  | some bc =>
    dsimp only
    by_cases hmt : bc.multiTid = false
    · rw [if_pos hmt]
      cases hu : upk [FU.u16] f m.offset with
      | none => exact presDelta_same m m _ (presDelta_refl m) rfl rfl (Nat.le_refl _)
      | some vs =>
        dsimp only
        by_cases hcb : bc.compressedBm = false
        · rw [if_pos hcb]
          exact presDelta_same m m _ (presDelta_refl m) rfl rfl (Nat.le_refl _)
        · rw [if_neg hcb]
          exact presDelta_same m m _ (presDelta_refl m) rfl rfl (Nat.le_refl _)
    · rw [if_neg hmt]
      by_cases hcb : bc.compressedBm = false
      · rw [if_pos hcb]
        exact presDelta_same m m _ (presDelta_refl m) rfl rfl (Nat.le_refl _)
      · rw [if_neg hcb]
        exact presDelta_same m m _ (presDelta_refl m) rfl rfl (Nat.le_refl _)

/-- The BlockAck arm. -/
lemma baStage_delta (f : Bytes) (m : Mpdu) : presDelta m (baStage f m) := by
  unfold baStage
  exact presDelta_trans (presDelta_trans
    (ctrlAddr2_delta f m "ctrl.ctrl-block-ack.addr2")
    (baCtrlRead_delta f _)) (baInfoRead_delta f _)

/-- The carried-frame-control read. -/
lemma wrapCfc_delta (f : Bytes) (m : Mpdu) : presDelta m (wrapCfc f m) := by
  unfold wrapCfc
  cases hu : upk [FU.u8, FU.u8] f m.offset with
  | some vs =>
    exact presDelta_step m m _ (presDelta_refl m) ["carriedframectrl"] rfl
      (by simp [bodyTags]) rfl (Nat.le_refl _)
  | none => exact presDelta_same m m _ (presDelta_refl m) rfl rfl (Nat.le_refl _)

/-- The HT-control read. -/
lemma wrapHtc_delta (f : Bytes) (m : Mpdu) : presDelta m (wrapHtc f m) := by
  unfold wrapHtc
  cases hu : upk [FU.u32] f m.offset with
  | some vs =>
    exact presDelta_step m m _ (presDelta_refl m) ["htc"] rfl
      (by simp [bodyTags]) rfl (Nat.le_refl _)
  | none => exact presDelta_same m m _ (presDelta_refl m) rfl rfl (Nat.le_refl _)

/-- The carried-frame slice. -/
lemma wrapCarried_delta (f : Bytes) (m : Mpdu) : presDelta m (wrapCarried f m) :=
  presDelta_step m m _ (presDelta_refl m) ["htc", "carriedframe"] rfl
    (by simp [bodyTags]) rfl (Nat.le_refl _)

/-- The wrapper arm. -/
lemma wrapperStage_delta (f : Bytes) (m : Mpdu) : presDelta m (wrapperStage f m) := by
  unfold wrapperStage
  exact presDelta_trans (presDelta_trans (wrapCfc_delta f m)
    (wrapHtc_delta f _)) (wrapCarried_delta f _)

/-- The control stage. -/
lemma ctrlStage_delta (f : Bytes) (m : Mpdu) : presDelta m (ctrlStage f m) := by
  unfold ctrlStage
  split_ifs
  · exact presDelta_refl m
  · exact ctrlAddr2_delta f m _
  · exact barStage_delta f m
  · exact baStage_delta f m
  · exact wrapperStage_delta f m
  · exact presDelta_same m m _ (presDelta_refl m) rfl rfl (Nat.le_refl _)

/-- The data addr2/addr3/seqctrl read. -/
lemma dataAddrs_delta (f : Bytes) (m : Mpdu) : presDelta m (dataAddrs f m) := by
  unfold dataAddrs
  cases hu : upk fmtAddr2Addr3Seq f m.offset with
  | some vs =>
    exact presDelta_step m m _ (presDelta_refl m) ["addr2", "addr3", "seqctrl"] rfl
      (by simp [bodyTags]) rfl (Nat.le_refl _)
  | none => exact presDelta_same m m _ (presDelta_refl m) rfl rfl (Nat.le_refl _)

/-- The fourth-address read. -/
lemma dataA4_delta (f : Bytes) (m : Mpdu) : presDelta m (dataA4 f m) := by
  unfold dataA4
  split_ifs
  · cases hu : upk fmtAddr f m.offset with
    | some vs =>
      exact presDelta_step m m _ (presDelta_refl m) ["addr4"] rfl
        (by simp [bodyTags]) rfl (Nat.le_refl _)
    | none => exact presDelta_same m m _ (presDelta_refl m) rfl rfl (Nat.le_refl _)
  · exact presDelta_refl m

/-- The QoS-control read. -/
lemma dataQos_delta (f : Bytes) (m : Mpdu) : presDelta m (dataQos f m) := by
  unfold dataQos
  split_ifs
  · cases hu : upk [FU.u8, FU.u8] f m.offset with
    | some vs =>
      exact presDelta_step m m _ (presDelta_refl m) ["qos"] rfl
        (by simp [bodyTags]) rfl (Nat.le_refl _)
    | none => exact presDelta_same m m _ (presDelta_refl m) rfl rfl (Nat.le_refl _)
  · exact presDelta_refl m

/-- The data stage. -/
lemma dataStage_delta (f : Bytes) (m : Mpdu) : presDelta m (dataStage f m) := by
  unfold dataStage
  exact presDelta_trans (presDelta_trans (dataAddrs_delta f m)
    (dataA4_delta f _)) (dataQos_delta f _)

/-- The WEP extractor. -/
lemma wepStage_delta (f : Bytes) (m : Mpdu) : presDelta m (wepStage f m) := by
  unfold wepStage
  cases hu : upk [FU.u8] f (m.offset + 3) with
  | some vs =>
    exact presDelta_same m m _ (presDelta_refl m) rfl rfl (Nat.le_add_right _ _)
  | none => exact presDelta_same m m _ (presDelta_refl m) rfl rfl (Nat.le_refl _)

/-- The TKIP extractor. -/
lemma tkipStage_delta (f : Bytes) (m : Mpdu) : presDelta m (tkipStage f m) := by
  unfold tkipStage
  split_ifs
  · exact presDelta_same m m _ (presDelta_refl m) rfl rfl (Nat.le_add_right _ _)
  · exact presDelta_same m m _ (presDelta_refl m) rfl rfl (Nat.le_refl _)

/-- The CCMP extractor. -/
lemma ccmpStage_delta (f : Bytes) (m : Mpdu) : presDelta m (ccmpStage f m) := by
  unfold ccmpStage
  split_ifs
  · exact presDelta_same m m _ (presDelta_refl m) rfl rfl (Nat.le_add_right _ _)
  · exact presDelta_same m m _ (presDelta_refl m) rfl rfl (Nat.le_refl _)

/-- The encryption discriminator. -/
lemma cryptPick_delta (f : Bytes) (m : Mpdu) (bs : List Nat) :
    presDelta m (cryptPick f m bs) := by
  unfold cryptPick
  split_ifs
  · exact wepStage_delta f m
  · exact tkipStage_delta f m
  · exact ccmpStage_delta f m

/-- The l3-crypt tag step. -/
lemma cryptTag_delta (m : Mpdu) : presDelta m (cryptTag m) := by
  unfold cryptTag
  split_ifs
  · exact presDelta_step m m _ (presDelta_refl m) ["l3-crypt"] rfl
      (by simp [bodyTags]) rfl (Nat.le_refl _)
  · exact presDelta_refl m

/-- The full encryption pass. -/
lemma cryptStage_delta (f : Bytes) (m : Mpdu) : presDelta m (cryptStage f m) := by
  unfold cryptStage
  cases hu : upk [FU.u8, FU.u8, FU.u8, FU.u8] f m.offset with
  | none => exact presDelta_same m m _ (presDelta_refl m) rfl rfl (Nat.le_refl _)
  | some bs => exact presDelta_trans (cryptPick_delta f m bs) (cryptTag_delta _)

/-- The conditional encryption pass. -/
lemma cryptMaybe_delta (f : Bytes) (m : Mpdu) : presDelta m (cryptMaybe f m) := by
  unfold cryptMaybe
  split_ifs
  · exact cryptStage_delta f m
  · exact presDelta_refl m

/-- The whole frame-type branch, when it returns a record. -/
lemma bodyStage_some {fw : Bytes} {m m2 : Mpdu} (h : bodyStage fw m = some m2) :
    presDelta m m2 := by
  unfold bodyStage at h
  split_ifs at h
  · exact mgmtStage_some h
  · injection h with h; rw [← h]; exact ctrlStage_delta fw m
  · injection h with h; rw [← h]; exact dataStage_delta fw m
  · injection h with h; rw [← h]
    exact presDelta_same m m _ (presDelta_refl m) rfl rfl (Nat.le_refl _)

/-- The header record: `present`, fcs and stripped by case on the flag. -/
lemma headerRec_shape (f : Bytes) (b : Bool) :
    (headerRec f b).present = ["framectrl", "duration", "addr1"] ∧
    (headerRec f b).fcs = (if b then some (readLE (takeLastN 4 f) 0 4) else none) ∧
    (headerRec f b).stripped = (if b then 4 else 0) := by
  cases b <;> exact ⟨rfl, rfl, rfl⟩

/-- C3 (amended): for every buffer and flag, whenever `parse` returns a
record the fcs tag is in `present` exactly when the caller asserted an FCS
(the buffer-length threshold is 10 — the threshold for a record at all —
not 14); when asserted, the fcs key holds the last four buffer bytes read
as a 32-bit little-endian integer, those bytes were removed from the
working buffer before type-specific parsing (accounted in `stripped`,
which is at least 4), and the buffer is at least 10 bytes long. -/
theorem fcs_presence_iff_caller_flag (f : Bytes) (b : Bool) (m : Mpdu)
    (h : parse f b = .ok m) :
    (("fcs" ∈ m.present) ↔ b = true) ∧
    (b = true → m.fcs = some (readLE (takeLastN 4 f) 0 4) ∧ 4 ≤ m.stripped) ∧
    10 ≤ f.length := by
  unfold parse at h
  by_cases hlen : f.length < 10
  · rw [if_pos hlen] at h
    by_cases hz : f.length = 0
    · rw [if_pos hz] at h; cases h
    · rw [if_neg hz] at h; cases h
  · rw [if_neg hlen] at h
    unfold parseTail at h
    cases hb : bodyStage (if b then dropLastN 4 f else f) (headerRec f b) with
    | none => rw [hb] at h; cases h
    | some m2 =>
      rw [hb] at h
      injection h with h
      obtain ⟨hpres, hfcs, hstr⟩ := headerRec_shape f b
      have hd : presDelta (headerRec f b)
          (cryptMaybe (if b then dropLastN 4 f else f) m2) :=
        presDelta_trans (bodyStage_some hb) (cryptMaybe_delta _ m2)
      obtain ⟨⟨l, hp, hl⟩, hf, hs⟩ := hd
      have hnofcs : "fcs" ∉ (cryptMaybe (if b then dropLastN 4 f else f) m2).present := by
        rw [hp, hpres]
        intro hmem
        rcases List.mem_append.mp hmem with h1 | h1
        · simp at h1
        · have hbt := hl _ h1
          simp [bodyTags] at hbt
      refine ⟨?_, ?_, by omega⟩
      · constructor
        · intro hmem
          cases b with
          | true => rfl
          | false =>
            rw [← h] at hmem
            unfold addFcsTag at hmem
            simp at hmem
            exact absurd hmem hnofcs
        · intro hbt
          subst hbt
          rw [← h]
          unfold addFcsTag
          simp
      · intro hbt
        subst hbt
        rw [← h]
        unfold addFcsTag
        simp only [if_pos rfl]
        constructor
        · show (cryptMaybe (dropLastN 4 f) m2).fcs = _
          have hfw : (if true = true then dropLastN 4 f else f) = dropLastN 4 f := by simp
          rw [← hfw, hf, hfcs]
          simp
        · show 4 ≤ (cryptMaybe (dropLastN 4 f) m2).stripped
          have h4 : (headerRec f true).stripped = 4 := by rw [hstr]; simp
          have hfw : (if true = true then dropLastN 4 f else f) = dropLastN 4 f := by simp
          rw [← hfw]
          omega

/-! ### C7: tags in `present` versus record keys -/

/-- C7 counterexample: on the 27-byte action frame `actionFrame` the tag
action-els is in `present` but the record has no action-els key (the value
went under the key action-el). -/
theorem action_els_tag_lacks_key :
    (okRec (parse actionFrame false)).map
        (fun m => (m.present.contains "action-els", hasKey m "action-els",
                   hasKey m "action-el")) =
      some (true, false, true) := rfl

/-- What the amended claim guarantees for one tag of `present`: the
matching key exists, except that the tag action-els stands for the key
action-el, and the tag htc may instead be covered by the recorded
HT-control unpack error of the control-wrapper arm. -/
def keyFor (m : Mpdu) (t : String) : Prop :=
  if t = "action-els" then m.actionEl.isSome = true
  else if t = "htc" then
    m.htc.isSome = true ∨ ("ctrl.ctrl-wrapper.htc", "unpacking") ∈ m.err
  else hasKey m t = true

/-- Every tag of `present` is covered per `keyFor`. -/
def tagsOk (m : Mpdu) : Prop := ∀ t ∈ m.present, keyFor m t

/-- Key-existence facts only grow along an update: each optional key stays
set once set, and error entries are never removed. -/
def keyMono (m m2 : Mpdu) : Prop :=
  (m.fcs.isSome = true → m2.fcs.isSome = true) ∧
  (m.addr2.isSome = true → m2.addr2.isSome = true) ∧
  (m.addr3.isSome = true → m2.addr3.isSome = true) ∧
  (m.seqctrl.isSome = true → m2.seqctrl.isSome = true) ∧
  (m.addr4.isSome = true → m2.addr4.isSome = true) ∧
  (m.qos.isSome = true → m2.qos.isSome = true) ∧
  (m.fixedParams.isSome = true → m2.fixedParams.isSome = true) ∧
  (m.actionEl.isSome = true → m2.actionEl.isSome = true) ∧
  (m.infoElements.isSome = true → m2.infoElements.isSome = true) ∧
  (m.barctrl.isSome = true → m2.barctrl.isSome = true) ∧
  (m.bactrl.isSome = true → m2.bactrl.isSome = true) ∧
  (m.barinfo.isSome = true → m2.barinfo.isSome = true) ∧
  (m.bainfo.isSome = true → m2.bainfo.isSome = true) ∧
  (m.carriedframectrl.isSome = true → m2.carriedframectrl.isSome = true) ∧
  (m.htc.isSome = true → m2.htc.isSome = true) ∧
  (m.carriedframe.isSome = true → m2.carriedframe.isSome = true) ∧
  (m.l3crypt.isSome = true → m2.l3crypt.isSome = true) ∧
  (∀ x, x ∈ m.err → x ∈ m2.err)

/-- `hasKey` transports along the seventeen key-monotonicity components. -/
lemma hasKey_mono {m m2 : Mpdu} (hkm : keyMono m m2) (t : String) :
    hasKey m t = true → hasKey m2 t = true := by
  obtain ⟨c1, c2, c3, c4, c5, c6, c7, c8, c9, c10, c11, c12, c13, c14, c15,
          c16, c17, _⟩ := hkm
  intro hx
  unfold hasKey at hx ⊢
  by_cases h0 : t = "framectrl" ∨ t = "duration" ∨ t = "addr1" ∨
      t = "offset" ∨ t = "stripped" ∨ t = "present" ∨ t = "err"
  · rw [if_pos h0]
  rw [if_neg h0] at hx ⊢
  by_cases h1 : t = "fcs"
  · rw [if_pos h1] at hx ⊢; exact c1 hx
  rw [if_neg h1] at hx ⊢
  by_cases h2 : t = "addr2"
  · rw [if_pos h2] at hx ⊢; exact c2 hx
  rw [if_neg h2] at hx ⊢
  by_cases h3 : t = "addr3"
  · rw [if_pos h3] at hx ⊢; exact c3 hx
  rw [if_neg h3] at hx ⊢
  by_cases h4 : t = "seqctrl"
  · rw [if_pos h4] at hx ⊢; exact c4 hx
  rw [if_neg h4] at hx ⊢
  by_cases h5 : t = "addr4"
  · rw [if_pos h5] at hx ⊢; exact c5 hx
  rw [if_neg h5] at hx ⊢
  by_cases h6 : t = "qos"
  · rw [if_pos h6] at hx ⊢; exact c6 hx
  rw [if_neg h6] at hx ⊢
  by_cases h7 : t = "fixed-params"
  · rw [if_pos h7] at hx ⊢; exact c7 hx
  rw [if_neg h7] at hx ⊢
  by_cases h8 : t = "action-el"
  · rw [if_pos h8] at hx ⊢; exact c8 hx
  rw [if_neg h8] at hx ⊢
  by_cases h9 : t = "info-elements"
  · rw [if_pos h9] at hx ⊢; exact c9 hx
  rw [if_neg h9] at hx ⊢
  by_cases h10 : t = "barctrl"
  · rw [if_pos h10] at hx ⊢; exact c10 hx
  rw [if_neg h10] at hx ⊢
  by_cases h11 : t = "bactrl"
  · rw [if_pos h11] at hx ⊢; exact c11 hx
  rw [if_neg h11] at hx ⊢
  by_cases h12 : t = "barinfo"
  · rw [if_pos h12] at hx ⊢; exact c12 hx
  rw [if_neg h12] at hx ⊢
  by_cases h13 : t = "bainfo"
  · rw [if_pos h13] at hx ⊢; exact c13 hx
  rw [if_neg h13] at hx ⊢
  by_cases h14 : t = "carriedframectrl"
  · rw [if_pos h14] at hx ⊢; exact c14 hx
  rw [if_neg h14] at hx ⊢
  by_cases h15 : t = "htc"
  · rw [if_pos h15] at hx ⊢; exact c15 hx
  rw [if_neg h15] at hx ⊢
  by_cases h16 : t = "carriedframe"
  · rw [if_pos h16] at hx ⊢; exact c16 hx
  rw [if_neg h16] at hx ⊢
  by_cases h17 : t = "l3-crypt"
  · rw [if_pos h17] at hx ⊢; exact c17 hx
  rw [if_neg h17] at hx ⊢
  exact hx

/-- `keyFor` transports along `keyMono`. -/
lemma keyFor_mono {m m2 : Mpdu} (hkm : keyMono m m2) (t : String) :
    keyFor m t → keyFor m2 t := by
  unfold keyFor
  split_ifs
  · exact hkm.2.2.2.2.2.2.2.1
  · intro hx
    rcases hx with hx | hx
    · exact Or.inl (hkm.2.2.2.2.2.2.2.2.2.2.2.2.2.2.1 hx)
    · exact Or.inr
        (hkm.2.2.2.2.2.2.2.2.2.2.2.2.2.2.2.2.2 _ hx)
  · exact hasKey_mono hkm t

/-- Extend a `tagsOk` record by one update step. -/
lemma tagsOk_extend {m m2 : Mpdu} (hok : tagsOk m) (hkm : keyMono m m2)
    (l : List String) (hp : m2.present = m.present ++ l)
    (hl : ∀ t ∈ l, keyFor m2 t) : tagsOk m2 := by
  intro t ht
  rw [hp] at ht
  rcases List.mem_append.mp ht with hold | hnew
  · exact keyFor_mono hkm t (hok t hold)
  · exact hl t hnew

/-- The addr2 read preserves the tag invariant. -/
lemma ctrlAddr2_tagsOk (f : Bytes) (m : Mpdu) (loc : String) (hok : tagsOk m) :
    tagsOk (ctrlAddr2 f m loc) := by
  unfold ctrlAddr2
  cases hu : upk fmtAddr f m.offset with
  | some vs =>
    dsimp only
    refine tagsOk_extend hok ⟨id, fun _ => rfl, id, id, id, id, id, id, id,
      id, id, id, id, id, id, id, id, fun _ hx => hx⟩ ["addr2"] rfl ?_
    intro t ht
    rw [List.mem_singleton] at ht
    subst ht
    exact rfl
  | none =>
    dsimp only
    exact tagsOk_extend hok ⟨id, id, id, id, id, id, id, id, id, id, id, id,
      id, id, id, id, id, fun _ hx => List.mem_append.mpr (Or.inl hx)⟩ []
      (by simp) (by intro t ht; cases ht)

/-- Extend a `tagsOk` record by a step that leaves `present` unchanged. -/
lemma tagsOk_same {m m2 : Mpdu} (hok : tagsOk m) (hkm : keyMono m m2)
    (hp : m2.present = m.present) : tagsOk m2 :=
  tagsOk_extend hok hkm [] (by rw [hp, List.append_nil])
    (by intro t ht; cases ht)

/-- The fixed-parameter error arm keeps the invariant. -/
lemma mgmtErr_tagsOk (m : Mpdu) (hok : tagsOk m) : tagsOk (mgmtErr m) :=
  tagsOk_same hok ⟨id, id, id, id, id, id, id, id, id, id, id, id, id, id,
    id, id, id, fun _ hx => List.mem_append.mpr (Or.inl hx)⟩ rfl

/-- `setFixed` sets the fixed-params key along with the tag. -/
lemma setFixed_tagsOk (m : Mpdu) (v : PyVal) (adv : Nat) (hok : tagsOk m) :
    tagsOk (setFixed m v adv) := by
  refine tagsOk_extend hok ⟨id, id, id, id, id, id, fun _ => rfl, id, id, id,
    id, id, id, id, id, id, id, fun _ hx => hx⟩ ["fixed-params"] rfl ?_
  intro t ht
  rw [List.mem_singleton] at ht
  subst ht
  exact rfl

/-- The fixed-parameter block keeps the invariant: each arm either stores
fixed-params with its tag, stores the action elements under action-el with
the action-els tag, or records an error. -/
lemma mgmtFixed_tagsOk (f : Bytes) (m : Mpdu) (hok : tagsOk m) :
    tagsOk (mgmtFixed f m) := by
  unfold mgmtFixed
  split_ifs
  · cases hu : upk [FU.u16, FU.u16] f m.offset with
    | some vs => exact setFixed_tagsOk m _ _ hok
    | none => exact mgmtErr_tagsOk m hok
  · cases hu : upk [FU.u16, FU.u16, FU.u16] f m.offset with
    | some vs => exact setFixed_tagsOk m _ _ hok
    | none => exact mgmtErr_tagsOk m hok
  · cases hu : upk ([FU.u16, FU.u16] ++ fmtAddr) f m.offset with
    | some vs => exact setFixed_tagsOk m _ _ hok
    | none => exact mgmtErr_tagsOk m hok
  · cases hu : upk [FU.u64, FU.u16] f m.offset with
    | some vs => exact setFixed_tagsOk m _ _ hok
    | none => exact mgmtErr_tagsOk m hok
  · cases hu : upk [FU.u64, FU.u16, FU.u16] f m.offset with
    | some vs => exact setFixed_tagsOk m _ _ hok
    | none => exact mgmtErr_tagsOk m hok
  · cases hu : upk [FU.u16] f m.offset with
    | some vs => exact setFixed_tagsOk m _ _ hok
    | none => exact mgmtErr_tagsOk m hok
  · cases hu : upk [FU.u16, FU.u16, FU.u16] f m.offset with
    | some vs => exact setFixed_tagsOk m _ _ hok
    | none => exact mgmtErr_tagsOk m hok
  · cases hu : upk [FU.u8, FU.u8] f m.offset with
    | some vs =>
      dsimp only
      by_cases hact : (setFixed m (.dict [("category", .int (vs.getD 0 0)),
                        ("action", .int (vs.getD 1 0))]) 2).offset < f.length
      · rw [if_pos hact]
        refine tagsOk_extend (setFixed_tagsOk m _ 2 hok) ⟨id, id, id, id, id,
          id, id, fun _ => rfl, id, id, id, id, id, id, id, id, id,
          fun _ hx => hx⟩ ["action-els"] rfl ?_
        intro t ht
        rw [List.mem_singleton] at ht
        subst ht
        exact rfl
      · rw [if_neg hact]
        exact setFixed_tagsOk m _ 2 hok
    | none => exact mgmtErr_tagsOk m hok
  · exact hok

/-- The mgmt addr2/addr3/seqctrl read keeps the invariant. -/
lemma mgmtAddrs_tagsOk (f : Bytes) (m : Mpdu) (hok : tagsOk m) :
    tagsOk (mgmtAddrs f m) := by
  unfold mgmtAddrs
  cases hu : upk fmtAddr2Addr3Seq f m.offset with
  | some vs =>
    dsimp only
    refine tagsOk_extend hok ⟨id, fun _ => rfl, fun _ => rfl, fun _ => rfl,
      id, id, id, id, id, id, id, id, id, id, id, id, id, fun _ hx => hx⟩
      ["addr2", "addr3", "seqctrl"] rfl ?_
    intro t ht
    fin_cases ht <;> exact rfl
  | none =>
    dsimp only
    exact tagsOk_same hok ⟨id, id, id, id, id, id, id, id, id, id, id, id,
      id, id, id, id, id, fun _ hx => List.mem_append.mpr (Or.inl hx)⟩ rfl

/-- The mgmt element loop, when it returns, keeps the invariant. -/
lemma mgmtIes_tagsOk {f : Bytes} {m2 m3 : Mpdu} (h : mgmtIes f m2 = some m3)
    (hok : tagsOk m2) : tagsOk m3 := by
  unfold mgmtIes at h
  by_cases hc : m2.offset < f.length
  · rw [if_pos hc] at h
    cases hr : ieLoopRun f ⟨m2.offset, [], []⟩ with
    | done s =>
      rw [hr] at h
      injection h with h
      rw [← h]
      refine tagsOk_extend hok ⟨id, id, id, id, id, id, id, id, fun _ => rfl,
        id, id, id, id, id, id, id, id,
        fun _ hx => List.mem_append.mpr (Or.inl hx)⟩ ["info-elements"] rfl ?_
      intro t ht
      rw [List.mem_singleton] at ht
      subst ht
      exact rfl
    | div s => rw [hr] at h; cases h
  · rw [if_neg hc] at h
    injection h with h
    rw [← h]
    exact hok

/-- The management stage keeps the invariant. -/
lemma mgmtStage_tagsOk {f : Bytes} {m m3 : Mpdu} (h : mgmtStage f m = some m3)
    (hok : tagsOk m) : tagsOk m3 := by
  unfold mgmtStage at h
  exact mgmtIes_tagsOk h (mgmtFixed_tagsOk f _ (mgmtAddrs_tagsOk f m hok))

/-- The bar-control read keeps the invariant. -/
lemma barCtrlRead_tagsOk (f : Bytes) (m : Mpdu) (hok : tagsOk m) :
    tagsOk (barCtrlRead f m) := by
  unfold barCtrlRead
  cases hu : upk [FU.u16] f m.offset with
  | some vs =>
    dsimp only
    refine tagsOk_extend hok ⟨id, id, id, id, id, id, id, id, id,
      fun _ => rfl, id, id, id, id, id, id, id, fun _ hx => hx⟩
      ["barctrl"] rfl ?_
    intro t ht
    rw [List.mem_singleton] at ht
    subst ht
    exact rfl
  | none =>
    dsimp only
    exact tagsOk_same hok ⟨id, id, id, id, id, id, id, id, id, id, id, id,
      id, id, id, id, id, fun _ hx => List.mem_append.mpr (Or.inl hx)⟩ rfl

/-- The bar-info read keeps the invariant: no tag is appended and the
barctrl key, when rewritten, stays set. -/
lemma barInfoRead_tagsOk (f : Bytes) (m : Mpdu) (hok : tagsOk m) :
    tagsOk (barInfoRead f m) := by
  unfold barInfoRead
  cases hbc : m.barctrl with
  | none =>
    dsimp only
    exact tagsOk_same hok ⟨id, id, id, id, id, id, id, id, id,
      fun hx => by rw [hbc] at hx; exact hx, id, id, id, id, id, id, id,
      fun _ hx => List.mem_append.mpr (Or.inl hx)⟩ rfl
  | some bc =>
    dsimp only
    by_cases hmt : bc.multiTid = false
    · rw [if_pos hmt]
      cases hu : upk [FU.u16] f m.offset with
      | some vs =>
        exact tagsOk_same hok ⟨id, id, id, id, id, id, id, id, id,
          fun _ => rfl, id, fun _ => rfl, id, id, id, id, id,
          fun _ hx => hx⟩ rfl
      | none =>
        exact tagsOk_same hok ⟨id, id, id, id, id, id, id, id, id,
          fun _ => rfl, id, id, id, id, id, id, id,
          fun _ hx => List.mem_append.mpr (Or.inl hx)⟩ rfl
    · rw [if_neg hmt]
      by_cases hcb : bc.compressedBm = false
      · rw [if_pos hcb]
        exact tagsOk_same hok ⟨id, id, id, id, id, id, id, id, id,
          fun _ => rfl, id, fun _ => rfl, id, id, id, id, id,
          fun _ hx => hx⟩ rfl
      · rw [if_neg hcb]
        exact tagsOk_same hok ⟨id, id, id, id, id, id, id, id, id,
          fun _ => rfl, id, fun _ => rfl, id, id, id, id, id,
          fun _ hx => List.mem_append.mpr (Or.inl hx)⟩ rfl

/-- The BlockAckReq arm keeps the invariant. -/
lemma barStage_tagsOk (f : Bytes) (m : Mpdu) (hok : tagsOk m) :
    tagsOk (barStage f m) := by
  unfold barStage
  exact barInfoRead_tagsOk f _ (barCtrlRead_tagsOk f _
    (ctrlAddr2_tagsOk f m _ hok))

/-- The ba-control read keeps the invariant. -/
lemma baCtrlRead_tagsOk (f : Bytes) (m : Mpdu) (hok : tagsOk m) :
    tagsOk (baCtrlRead f m) := by
  unfold baCtrlRead
  cases hu : upk [FU.u16] f m.offset with
  | some vs =>
    dsimp only
    refine tagsOk_extend hok ⟨id, id, id, id, id, id, id, id, id, id,
      fun _ => rfl, id, id, id, id, id, id, fun _ hx => hx⟩
      ["bactrl"] rfl ?_
    intro t ht
    rw [List.mem_singleton] at ht
    subst ht
    exact rfl
  | none =>
    dsimp only
    exact tagsOk_same hok ⟨id, id, id, id, id, id, id, id, id, id, id, id,
      id, id, id, id, id, fun _ hx => List.mem_append.mpr (Or.inl hx)⟩ rfl

/-- The ba-info read keeps the invariant. -/
lemma baInfoRead_tagsOk (f : Bytes) (m : Mpdu) (hok : tagsOk m) :
    tagsOk (baInfoRead f m) := by
  unfold baInfoRead
  cases hbc : m.bactrl with
  | none =>
    dsimp only
    exact tagsOk_same hok ⟨id, id, id, id, id, id, id, id, id, id,
      fun hx => by rw [hbc] at hx; exact hx, id, id, id, id, id, id,
      fun _ hx => List.mem_append.mpr (Or.inl hx)⟩ rfl
  | some bc =>
    dsimp only
    by_cases hmt : bc.multiTid = false
    · rw [if_pos hmt]
      cases hu : upk [FU.u16] f m.offset with
      | none =>
        dsimp only
        exact tagsOk_same hok ⟨id, id, id, id, id, id, id, id, id, id,
          fun _ => rfl, id, id, id, id, id, id,
          fun _ hx => List.mem_append.mpr (Or.inl hx)⟩ rfl
      | some vs =>
        dsimp only
        by_cases hcb : bc.compressedBm = false
        · rw [if_pos hcb]
          exact tagsOk_same hok ⟨id, id, id, id, id, id, id, id, id, id,
            fun _ => rfl, id, fun _ => rfl, id, id, id, id,
            fun _ hx => hx⟩ rfl
        · rw [if_neg hcb]
          exact tagsOk_same hok ⟨id, id, id, id, id, id, id, id, id, id,
            fun _ => rfl, id, fun _ => rfl, id, id, id, id,
            fun _ hx => hx⟩ rfl
    · rw [if_neg hmt]
      by_cases hcb : bc.compressedBm = false
      · rw [if_pos hcb]
        exact tagsOk_same hok ⟨id, id, id, id, id, id, id, id, id, id,
          fun _ => rfl, id, fun _ => rfl, id, id, id, id,
          fun _ hx => hx⟩ rfl
      · rw [if_neg hcb]
        exact tagsOk_same hok ⟨id, id, id, id, id, id, id, id, id, id,
          fun _ => rfl, id, fun _ => rfl, id, id, id, id,
          fun _ hx => List.mem_append.mpr (Or.inl hx)⟩ rfl

/-- The BlockAck arm keeps the invariant. -/
lemma baStage_tagsOk (f : Bytes) (m : Mpdu) (hok : tagsOk m) :
    tagsOk (baStage f m) := by
  unfold baStage
  exact baInfoRead_tagsOk f _ (baCtrlRead_tagsOk f _
    (ctrlAddr2_tagsOk f m _ hok))

/-- The carried-frame-control read keeps the invariant. -/
lemma wrapCfc_tagsOk (f : Bytes) (m : Mpdu) (hok : tagsOk m) :
    tagsOk (wrapCfc f m) := by
  unfold wrapCfc
  cases hu : upk [FU.u8, FU.u8] f m.offset with
  | some vs =>
    dsimp only
    refine tagsOk_extend hok ⟨id, id, id, id, id, id, id, id, id, id, id,
      id, id, fun _ => rfl, id, id, id, fun _ hx => hx⟩
      ["carriedframectrl"] rfl ?_
    intro t ht
    rw [List.mem_singleton] at ht
    subst ht
    exact rfl
  | none =>
    dsimp only
    exact tagsOk_same hok ⟨id, id, id, id, id, id, id, id, id, id, id, id,
      id, id, id, id, id, fun _ hx => List.mem_append.mpr (Or.inl hx)⟩ rfl

/-- The HT-control read keeps the invariant. -/
lemma wrapHtc_tagsOk (f : Bytes) (m : Mpdu) (hok : tagsOk m) :
    tagsOk (wrapHtc f m) := by
  unfold wrapHtc
  cases hu : upk [FU.u32] f m.offset with
  | some vs =>
    dsimp only
    refine tagsOk_extend hok ⟨id, id, id, id, id, id, id, id, id, id, id,
      id, id, id, fun _ => rfl, id, id, fun _ hx => hx⟩ ["htc"] rfl ?_
    intro t ht
    rw [List.mem_singleton] at ht
    subst ht
    exact Or.inl rfl
  | none =>
    dsimp only
    exact tagsOk_same hok ⟨id, id, id, id, id, id, id, id, id, id, id, id,
      id, id, id, id, id, fun _ hx => List.mem_append.mpr (Or.inl hx)⟩ rfl

/-- After the HT-control read, either the htc key was set or the
HT-control unpack error was recorded. -/
lemma wrapHtc_htcOk (f : Bytes) (m : Mpdu) :
    (wrapHtc f m).htc.isSome = true ∨
    ("ctrl.ctrl-wrapper.htc", "unpacking") ∈ (wrapHtc f m).err := by
  unfold wrapHtc
  cases hu : upk [FU.u32] f m.offset with
  | some vs => exact Or.inl rfl
  | none =>
    exact Or.inr (List.mem_append.mpr (Or.inr (List.mem_singleton.mpr rfl)))

/-- The carried-frame slice keeps the invariant, provided the htc tag it
appends is already covered by a key or a recorded unpack error. -/
lemma wrapCarried_tagsOk (f : Bytes) (m : Mpdu) (hok : tagsOk m)
    (hhtc : m.htc.isSome = true ∨
      ("ctrl.ctrl-wrapper.htc", "unpacking") ∈ m.err) :
    tagsOk (wrapCarried f m) := by
  unfold wrapCarried
  refine tagsOk_extend hok ⟨id, id, id, id, id, id, id, id, id, id, id, id,
    id, id, id, fun _ => rfl, id, fun _ hx => hx⟩
    ["htc", "carriedframe"] rfl ?_
  intro t ht
  fin_cases ht
  · exact hhtc
  · exact rfl

/-- The wrapper arm keeps the invariant. -/
lemma wrapperStage_tagsOk (f : Bytes) (m : Mpdu) (hok : tagsOk m) :
    tagsOk (wrapperStage f m) := by
  unfold wrapperStage
  exact wrapCarried_tagsOk f _ (wrapHtc_tagsOk f _ (wrapCfc_tagsOk f m hok))
    (wrapHtc_htcOk f _)

/-- The control stage keeps the invariant. -/
lemma ctrlStage_tagsOk (f : Bytes) (m : Mpdu) (hok : tagsOk m) :
    tagsOk (ctrlStage f m) := by
  unfold ctrlStage
  split_ifs
  · exact hok
  · exact ctrlAddr2_tagsOk f m _ hok
  · exact barStage_tagsOk f m hok
  · exact baStage_tagsOk f m hok
  · exact wrapperStage_tagsOk f m hok
  · exact tagsOk_same hok ⟨id, id, id, id, id, id, id, id, id, id, id, id,
      id, id, id, id, id, fun _ hx => List.mem_append.mpr (Or.inl hx)⟩ rfl

/-- The data addr2/addr3/seqctrl read keeps the invariant. -/
lemma dataAddrs_tagsOk (f : Bytes) (m : Mpdu) (hok : tagsOk m) :
    tagsOk (dataAddrs f m) := by
  unfold dataAddrs
  cases hu : upk fmtAddr2Addr3Seq f m.offset with
  | some vs =>
    dsimp only
    refine tagsOk_extend hok ⟨id, fun _ => rfl, fun _ => rfl, fun _ => rfl,
      id, id, id, id, id, id, id, id, id, id, id, id, id, fun _ hx => hx⟩
      ["addr2", "addr3", "seqctrl"] rfl ?_
    intro t ht
    fin_cases ht <;> exact rfl
  | none =>
    dsimp only
    exact tagsOk_same hok ⟨id, id, id, id, id, id, id, id, id, id, id, id,
      id, id, id, id, id, fun _ hx => List.mem_append.mpr (Or.inl hx)⟩ rfl

/-- The fourth-address read keeps the invariant. -/
lemma dataA4_tagsOk (f : Bytes) (m : Mpdu) (hok : tagsOk m) :
    tagsOk (dataA4 f m) := by
  unfold dataA4
  split_ifs
  · cases hu : upk fmtAddr f m.offset with
    | some vs =>
      dsimp only
      refine tagsOk_extend hok ⟨id, id, id, id, fun _ => rfl, id, id, id, id,
        id, id, id, id, id, id, id, id, fun _ hx => hx⟩ ["addr4"] rfl ?_
      intro t ht
      rw [List.mem_singleton] at ht
      subst ht
      exact rfl
    | none =>
      dsimp only
      exact tagsOk_same hok ⟨id, id, id, id, id, id, id, id, id, id, id, id,
        id, id, id, id, id, fun _ hx => List.mem_append.mpr (Or.inl hx)⟩ rfl
  · exact hok

/-- The QoS-control read keeps the invariant. -/
lemma dataQos_tagsOk (f : Bytes) (m : Mpdu) (hok : tagsOk m) :
    tagsOk (dataQos f m) := by
  unfold dataQos
  split_ifs
  · cases hu : upk [FU.u8, FU.u8] f m.offset with
    | some vs =>
      dsimp only
      refine tagsOk_extend hok ⟨id, id, id, id, id, fun _ => rfl, id, id, id,
        id, id, id, id, id, id, id, id, fun _ hx => hx⟩ ["qos"] rfl ?_
      intro t ht
      rw [List.mem_singleton] at ht
      subst ht
      exact rfl
    | none =>
      dsimp only
      exact tagsOk_same hok ⟨id, id, id, id, id, id, id, id, id, id, id, id,
        id, id, id, id, id, fun _ hx => List.mem_append.mpr (Or.inl hx)⟩ rfl
  · exact hok

/-- The data stage keeps the invariant. -/
lemma dataStage_tagsOk (f : Bytes) (m : Mpdu) (hok : tagsOk m) :
    tagsOk (dataStage f m) := by
  unfold dataStage
  exact dataQos_tagsOk f _ (dataA4_tagsOk f _ (dataAddrs_tagsOk f m hok))

/-- The WEP extractor keeps the invariant. -/
lemma wepStage_tagsOk (f : Bytes) (m : Mpdu) (hok : tagsOk m) :
    tagsOk (wepStage f m) := by
  unfold wepStage
  cases hu : upk [FU.u8] f (m.offset + 3) with
  | some ks =>
    dsimp only
    exact tagsOk_same hok ⟨id, id, id, id, id, id, id, id, id, id, id, id,
      id, id, id, id, fun _ => rfl, fun _ hx => hx⟩ rfl
  | none =>
    dsimp only
    exact tagsOk_same hok ⟨id, id, id, id, id, id, id, id, id, id, id, id,
      id, id, id, id, id, fun _ hx => List.mem_append.mpr (Or.inl hx)⟩ rfl

/-- The TKIP extractor keeps the invariant. -/
lemma tkipStage_tagsOk (f : Bytes) (m : Mpdu) (hok : tagsOk m) :
    tagsOk (tkipStage f m) := by
  unfold tkipStage
  split_ifs
  · exact tagsOk_same hok ⟨id, id, id, id, id, id, id, id, id, id, id, id,
      id, id, id, id, fun _ => rfl, fun _ hx => hx⟩ rfl
  · exact tagsOk_same hok ⟨id, id, id, id, id, id, id, id, id, id, id, id,
      id, id, id, id, id, fun _ hx => List.mem_append.mpr (Or.inl hx)⟩ rfl

/-- The CCMP extractor keeps the invariant. -/
lemma ccmpStage_tagsOk (f : Bytes) (m : Mpdu) (hok : tagsOk m) :
    tagsOk (ccmpStage f m) := by
  unfold ccmpStage
  split_ifs
  · exact tagsOk_same hok ⟨id, id, id, id, id, id, id, id, id, id, id, id,
      id, id, id, id, fun _ => rfl, fun _ hx => hx⟩ rfl
  · exact tagsOk_same hok ⟨id, id, id, id, id, id, id, id, id, id, id, id,
      id, id, id, id, id, fun _ hx => List.mem_append.mpr (Or.inl hx)⟩ rfl

/-- The l3-crypt tag step keeps the invariant: the tag is appended only
when the key is set. -/
lemma cryptTag_tagsOk (m : Mpdu) (hok : tagsOk m) : tagsOk (cryptTag m) := by
  unfold cryptTag
  split_ifs with hkey
  · refine tagsOk_extend hok ⟨id, id, id, id, id, id, id, id, id, id, id,
      id, id, id, id, id, id, fun _ hx => hx⟩ ["l3-crypt"] rfl ?_
    intro t ht
    rw [List.mem_singleton] at ht
    subst ht
    exact hkey
  · exact hok

/-- The encryption discriminator keeps the invariant. -/
lemma cryptPick_tagsOk (f : Bytes) (m : Mpdu) (bs : List Nat)
    (hok : tagsOk m) : tagsOk (cryptPick f m bs) := by
  unfold cryptPick
  split_ifs
  · exact wepStage_tagsOk f m hok
  · exact tkipStage_tagsOk f m hok
  · exact ccmpStage_tagsOk f m hok

/-- The full encryption pass keeps the invariant. -/
lemma cryptStage_tagsOk (f : Bytes) (m : Mpdu) (hok : tagsOk m) :
    tagsOk (cryptStage f m) := by
  unfold cryptStage
  cases hu : upk [FU.u8, FU.u8, FU.u8, FU.u8] f m.offset with
  | none =>
    dsimp only
    exact tagsOk_same hok ⟨id, id, id, id, id, id, id, id, id, id, id, id,
      id, id, id, id, id, fun _ hx => List.mem_append.mpr (Or.inl hx)⟩ rfl
  | some bs => exact cryptTag_tagsOk _ (cryptPick_tagsOk f m bs hok)

/-- The conditional encryption pass keeps the invariant. -/
lemma cryptMaybe_tagsOk (f : Bytes) (m : Mpdu) (hok : tagsOk m) :
    tagsOk (cryptMaybe f m) := by
  unfold cryptMaybe
  split_ifs
  · exact cryptStage_tagsOk f m hok
  · exact hok

/-- The frame-type branch, when it returns a record, keeps the invariant. -/
lemma bodyStage_tagsOk {fw : Bytes} {m m2 : Mpdu}
    (h : bodyStage fw m = some m2) (hok : tagsOk m) : tagsOk m2 := by
  unfold bodyStage at h
  split_ifs at h
  · exact mgmtStage_tagsOk h hok
  · injection h with h; rw [← h]; exact ctrlStage_tagsOk fw m hok
  · injection h with h; rw [← h]; exact dataStage_tagsOk fw m hok
  · injection h with h
    rw [← h]
    exact tagsOk_same hok ⟨id, id, id, id, id, id, id, id, id, id, id, id,
      id, id, id, id, id, fun _ hx => List.mem_append.mpr (Or.inl hx)⟩ rfl

/-- The header record satisfies the invariant: its three tags are keys of
every record. -/
lemma headerRec_tagsOk (f : Bytes) (b : Bool) : tagsOk (headerRec f b) := by
  intro t ht
  rw [(headerRec_shape f b).1] at ht
  fin_cases ht <;> exact rfl

/-- C7 (amended): for every record returned by `parse`, every tag of
`present` other than action-els and htc names a key of the record with a
set value; the tag action-els instead guarantees the key action-el, and
the tag htc guarantees either the htc key or, in the control-wrapper arm
whose final extend appends the tag unconditionally, a recorded HT-control
unpack error. -/
theorem present_tags_have_keys (f : Bytes) (b : Bool) (m : Mpdu)
    (h : parse f b = .ok m) :
    (∀ t ∈ m.present, t ≠ "action-els" → t ≠ "htc" → hasKey m t = true) ∧
    ("action-els" ∈ m.present → hasKey m "action-el" = true) ∧
    ("htc" ∈ m.present → hasKey m "htc" = true ∨
      ("ctrl.ctrl-wrapper.htc", "unpacking") ∈ m.err) := by
  have htags : tagsOk m := by
    unfold parse at h
    by_cases hlen : f.length < 10
    · rw [if_pos hlen] at h
      by_cases hz : f.length = 0
      · rw [if_pos hz] at h; cases h
      · rw [if_neg hz] at h; cases h
    · rw [if_neg hlen] at h
      unfold parseTail at h
      cases hb : bodyStage (if b then dropLastN 4 f else f) (headerRec f b) with
      | none => rw [hb] at h; cases h
      | some m2 =>
        rw [hb] at h
        injection h with h
        rw [← h]
        have h3 : tagsOk (cryptMaybe (if b then dropLastN 4 f else f) m2) :=
          cryptMaybe_tagsOk _ m2 (bodyStage_tagsOk hb (headerRec_tagsOk f b))
        have hd : presDelta (headerRec f b)
            (cryptMaybe (if b then dropLastN 4 f else f) m2) :=
          presDelta_trans (bodyStage_some hb) (cryptMaybe_delta _ m2)
        cases b with
        | false => exact h3
        | true =>
          unfold addFcsTag
          rw [if_pos rfl]
          refine tagsOk_extend h3 ⟨id, id, id, id, id, id, id, id, id, id,
            id, id, id, id, id, id, id, fun _ hx => hx⟩ ["fcs"] rfl ?_
          intro t ht
          rw [List.mem_singleton] at ht
          subst ht
          show (cryptMaybe (if true = true then dropLastN 4 f else f) m2).fcs.isSome = true
          rw [hd.2.1]
          rfl
  refine ⟨?_, ?_, ?_⟩
  · intro t ht h1 h2
    have hk := htags t ht
    unfold keyFor at hk
    rw [if_neg h1, if_neg h2] at hk
    exact hk
  · intro ht
    have hk := htags _ ht
    unfold keyFor at hk
    rw [if_pos rfl] at hk
    exact hk
  · intro ht
    have hk := htags _ ht
    unfold keyFor at hk
    rw [if_neg (by decide), if_pos rfl] at hk
    exact hk

/-- The record parsed from the twelve-byte control-wrapper frame. -/
def wrapRec : Mpdu := (okRec (parse wrapShort false)).getD mPf0

/-- Witness for the amended C7 theorem at the control-wrapper frame
`wrapShort`: the htc tag is present, and the theorem's htc disjunct is
settled by the recorded unpack error (indeed the htc key is unset). -/
theorem present_tags_have_keys_witness :
    parse wrapShort false = ParseOutcome.ok wrapRec ∧
    "htc" ∈ wrapRec.present ∧
    hasKey wrapRec "htc" = false ∧
    (hasKey wrapRec "htc" = true ∨
      ("ctrl.ctrl-wrapper.htc", "unpacking") ∈ wrapRec.err) :=
  ⟨rfl, by decide, by decide,
    (present_tags_have_keys wrapShort false wrapRec rfl).2.2 (by decide)⟩

/-- The record parsed from the ten-byte ACK with the FCS flag asserted. -/
def ack10okRec : Mpdu :=
  match parse ack10 true with
  | .ok m => m
  | _ => mPf0

/-- Witness for C3 on the ten-byte ACK with the FCS flag set. -/
theorem fcs_presence_iff_caller_flag_witness :
    (("fcs" ∈ ack10okRec.present) ↔ true = true) ∧
    (true = true → ack10okRec.fcs = some (readLE (takeLastN 4 ack10) 0 4) ∧
      4 ≤ ack10okRec.stripped) ∧
    10 ≤ ack10.length :=
  fcs_presence_iff_caller_flag ack10 true ack10okRec rfl

end Itamae
